import Mathlib

/-!
A shallow embedding of the BlockBay-Nozama on-chain core, translated from the
Solidity sources:

* `Escrow.sol` (the Custody Vault): `createEscrow`, `releaseEscrow`,
  `refundEscrow`, `initiateDispute`;
* `ListingRegistry.sol` (the Stock Ledger): `createListing`, `updateListing`,
  `decrementStock`;
* `OrderManager.sol` (the Order Coordinator): `createOrder`, `payOrder`,
  `updateOrderStatus`, `confirmDeliveryAndRelease`, `cancelOrderAndRefund`.

Modelling conventions.

* Addresses are natural numbers; the zero address is `0`.
* `uint256` quantities (amounts, timestamps, stock) are `Nat`.  All the
  arithmetic the embedded operations perform is addition of timestamps and
  guarded subtraction of stock, far below `2 ^ 256`, so wrap-around is not
  modelled (Solidity 0.8 would revert on overflow anyway).
* Solidity mappings are association lists.  The sentinel checks in the source
  (`bytes(x.id).length == 0`, `escrow.escrowId != bytes32(0)`,
  `orderToEscrow[_orderId] == bytes32(0)`) test whether a record is present:
  every stored record has a nonempty / nonzero id, so presence in the
  association list is the faithful translation and `none` plays the role of
  the zero sentinel.
* `keccak256(abi.encodePacked(_orderId, msg.sender, block.timestamp))` is
  modelled as the triple of its preimage (`EscrowId`), i.e. the hash is
  treated as injective and never equal to `bytes32(0)` — the collision
  freeness the contract itself relies on.
* A `require(cond, "msg")` failure is a revert: it is modelled by `Except`,
  and an erroring call leaves the caller's state unchanged.  Each revert
  string is mapped to the error kind of the specification's taxonomy
  (for instance "Escrow is not locked" is `WrongState`, "Not authorized to
  refund" is `Unauthorized`, "Incorrect payment amount" is
  `IncorrectAmount`).
* The low-level value transfer `addr.call{value: amount}("")` succeeds or
  fails according to an environment parameter `callOk : Address → Bool`
  (a contract with no receive/fallback function cannot receive plain value,
  so its address maps to `false`).  A successful `releaseEscrow`/
  `refundEscrow` reports its effects as an ordered list of `EscrowAction`s,
  in the statement order of the Solidity body, so that the relative order of
  the state write and the external transfer can be stated.
* `msg.sender`, `msg.value` and `block.timestamp` of a call are bundled in
  `CallCtx`.  When the Order Coordinator calls into the Vault or the Stock
  Ledger, the nested call's sender is the Coordinator's own contract address
  (`omAddr`).
-/

/-- An account / contract address (`address`); `0` is the zero address. -/
abbrev Address := Nat

/-- `msg.sender`, `msg.value` and `block.timestamp` of one external call. -/
structure CallCtx where
  sender : Address
  value : Nat
  timestamp : Nat
deriving DecidableEq, Repr

/-! ### Association lists standing for Solidity mappings -/

/-- Lookup in an association list (Solidity `mapping` read; `none` is the
zero-value sentinel). -/
def alookup {α β : Type} [DecidableEq α] (k : α) : List (α × β) → Option β
  | [] => none
  | (k', v) :: rest => if k' = k then some v else alookup k rest

/-- Write to an association list (Solidity `mapping` store): overwrite the
binding of `k` if present, otherwise append it. -/
def aset {α β : Type} [DecidableEq α] (k : α) (v : β) : List (α × β) → List (α × β)
  | [] => [(k, v)]
  | (k', v') :: rest => if k' = k then (k, v) :: rest else (k', v') :: aset k v rest

/-- Append `v` to the list stored under `k` (the `push` on
`buyerOrders[msg.sender]`-style secondary indexes). -/
def apush {α β : Type} [DecidableEq α] (k : α) (v : β) (l : List (α × List β)) :
    List (α × List β) :=
  aset k ((alookup k l).getD [] ++ [v]) l

theorem alookup_aset_self {α β : Type} [DecidableEq α] (k : α) (v : β)
    (l : List (α × β)) : alookup k (aset k v l) = some v := by
  induction l with
  | nil => simp [alookup, aset]
  | cons hd tl ih =>
    obtain ⟨k', v'⟩ := hd
    by_cases h : k' = k
    · simp [alookup, aset, h]
    · simp [alookup, aset, h, ih]

theorem alookup_aset_ne {α β : Type} [DecidableEq α] {k k' : α} (v : β)
    (l : List (α × β)) (h : k' ≠ k) :
    alookup k (aset k' v l) = alookup k l := by
  induction l with
  | nil => simp [alookup, aset, h]
  | cons hd tl ih =>
    obtain ⟨k₀, v₀⟩ := hd
    by_cases h0 : k₀ = k'
    · subst h0
      simp [alookup, aset, h]
    · by_cases h1 : k₀ = k
      · subst h1
        simp [alookup, aset, h0, Ne.symm h]
      · simp [alookup, aset, h0, h1, ih]

/-! ### Custody Vault (`Escrow.sol`) -/

/-- `enum EscrowState { Locked, Released, Refunded, Disputed }`. -/
inductive EscrowState where
  | Locked
  | Released
  | Refunded
  | Disputed
deriving DecidableEq, Repr

/-- The escrow id `keccak256(abi.encodePacked(_orderId, msg.sender,
block.timestamp))`, modelled by its preimage (the hash is injective and
nonzero for the purposes of the contract). -/
structure EscrowId where
  orderId : String
  sender : Address
  timestamp : Nat
deriving DecidableEq, Repr

/-- `struct EscrowDetails`. -/
structure EscrowDetails where
  escrowId : EscrowId
  orderId : String
  buyer : Address
  seller : Address
  amount : Nat
  state : EscrowState
  createdAt : Nat
  releaseTime : Nat
  disputed : Bool
deriving DecidableEq, Repr

/-- `uint256 public constant ESCROW_PERIOD = 14 days;` (in seconds). -/
def ESCROW_PERIOD : Nat := 14 * 86400

/-- `uint256 public constant DISPUTE_WINDOW = 7 days;` (in seconds). -/
def DISPUTE_WINDOW : Nat := 7 * 86400

/-- The storage of the `Escrow` contract: the `escrows` and `orderToEscrow`
mappings, the `escrowIds` array, and the `Ownable` owner. -/
structure EscrowStorage where
  escrows : List (EscrowId × EscrowDetails)
  orderToEscrow : List (String × EscrowId)
  escrowIds : List EscrowId
  vaultOwner : Address
deriving DecidableEq, Repr

/-- Error kinds, following the specification's taxonomy; each constructor
corresponds to one (group of) `require` revert string(s) of the Vault. -/
inductive VaultError where
  | NotFound        -- "Escrow does not exist"
  | WrongState      -- "Escrow is not locked"
  | Disputed        -- "Escrow is disputed" (release path)
  | AlreadyDisputed -- "Dispute already initiated"
  | Unauthorized    -- "Not authorized to release/refund", "Only buyer or seller can dispute"
  | AlreadyExists   -- "Escrow already exists for this order"
  | InvalidInput    -- "Must send ETH", "Invalid seller address", "Buyer and seller cannot be the same"
  | TransferFailed  -- "Transfer to seller/buyer failed"
deriving DecidableEq, Repr

/-- The externally visible effects of a successful mutating Vault call, in the
statement order of the Solidity body. -/
inductive EscrowAction where
  | setState (id : EscrowId) (s : EscrowState)
  | transfer (id : EscrowId) (recipient : Address) (amount : Nat)
deriving DecidableEq, Repr

/-- `Escrow.createEscrow(_orderId, _seller)` (payable). -/
def createEscrow (st : EscrowStorage) (ctx : CallCtx) (orderId : String)
    (seller : Address) : Except VaultError (EscrowStorage × EscrowId) :=
  if ctx.value = 0 then .error .InvalidInput else          -- require(msg.value > 0)
  if seller = 0 then .error .InvalidInput else             -- require(_seller != address(0))
  if seller = ctx.sender then .error .InvalidInput else    -- require(_seller != msg.sender)
  match alookup orderId st.orderToEscrow with
  | some _ => .error .AlreadyExists                        -- require(orderToEscrow[_orderId] == bytes32(0))
  | none =>
    let eid : EscrowId := ⟨orderId, ctx.sender, ctx.timestamp⟩
    let e : EscrowDetails :=
      { escrowId := eid
        orderId := orderId
        buyer := ctx.sender
        seller := seller
        amount := ctx.value
        state := .Locked
        createdAt := ctx.timestamp
        releaseTime := ctx.timestamp + ESCROW_PERIOD
        disputed := false }
    .ok ({ st with
            escrows := aset eid e st.escrows
            orderToEscrow := aset orderId eid st.orderToEscrow
            escrowIds := st.escrowIds ++ [eid] }, eid)

/-- `Escrow.releaseEscrow(_escrowId)`.  The escrow's state is written to
`Released` and only then the held amount is sent to the seller; the returned
action list records the two effects in that order, and the returned storage is
the storage already in force while the external transfer executes. -/
def releaseEscrow (st : EscrowStorage) (ctx : CallCtx) (callOk : Address → Bool)
    (id : EscrowId) : Except VaultError (EscrowStorage × List EscrowAction) :=
  match alookup id st.escrows with
  | none => .error .NotFound
  | some e =>
    if e.state ≠ .Locked then .error .WrongState else
    if e.disputed then .error .Disputed else
    if ¬ (ctx.sender = e.buyer ∨ ctx.sender = st.vaultOwner ∨
          e.releaseTime ≤ ctx.timestamp) then .error .Unauthorized else
    -- escrow.state = EscrowState.Released;  (before the transfer)
    let st' := { st with escrows := aset id { e with state := .Released } st.escrows }
    -- (bool success, ) = escrow.seller.call{value: escrow.amount}("");
    if callOk e.seller then
      .ok (st', [.setState id .Released, .transfer id e.seller e.amount])
    else .error .TransferFailed

/-- `Escrow.refundEscrow(_escrowId)`.  Same write-then-transfer discipline,
with the held amount sent back to the recorded buyer. -/
def refundEscrow (st : EscrowStorage) (ctx : CallCtx) (callOk : Address → Bool)
    (id : EscrowId) : Except VaultError (EscrowStorage × List EscrowAction) :=
  match alookup id st.escrows with
  | none => .error .NotFound
  | some e =>
    if e.state ≠ .Locked then .error .WrongState else
    if ¬ (ctx.sender = e.seller ∨ ctx.sender = st.vaultOwner ∨
          (e.disputed ∧ e.createdAt + DISPUTE_WINDOW ≤ ctx.timestamp)) then
      .error .Unauthorized else
    let st' := { st with escrows := aset id { e with state := .Refunded } st.escrows }
    if callOk e.buyer then
      .ok (st', [.setState id .Refunded, .transfer id e.buyer e.amount])
    else .error .TransferFailed

/-- `Escrow.initiateDispute(_escrowId)`. -/
def initiateDispute (st : EscrowStorage) (ctx : CallCtx) (id : EscrowId) :
    Except VaultError EscrowStorage :=
  match alookup id st.escrows with
  | none => .error .NotFound
  | some e =>
    if e.state ≠ .Locked then .error .WrongState else
    if e.disputed then .error .AlreadyDisputed else
    if ¬ (ctx.sender = e.buyer ∨ ctx.sender = e.seller) then .error .Unauthorized else
    .ok { st with escrows := aset id { e with disputed := true, state := .Disputed } st.escrows }

/-! ### Stock Ledger (`ListingRegistry.sol`) -/

/-- `struct Listing`. -/
structure Listing where
  listingId : String
  seller : Address
  name : String
  price : Nat
  currency : String
  stock : Nat
  ipfsCID : String
  active : Bool
  createdAt : Nat
deriving DecidableEq, Repr

/-- Error kinds of the Stock Ledger, one per `require` revert string. -/
inductive RegError where
  | NotFound          -- "Listing does not exist"
  | Inactive          -- "Listing is not active"
  | InsufficientStock -- "Insufficient stock"
  | AlreadyExists     -- "Listing already exists"
  | InvalidInput      -- "Invalid listing ID", "Price/Stock must be greater than 0"
  | Unauthorized      -- "Not the seller"
deriving DecidableEq, Repr

/-- The storage of the `ListingRegistry` contract.  (The contract inherits
`Ownable` but none of its functions consults the owner, so the owner is not
modelled.) -/
structure RegistryState where
  listings : List (String × Listing)
  listingIds : List String
  sellerListings : List (Address × List String)
deriving DecidableEq, Repr

/-- `ListingRegistry.createListing(_listingId, _name, _price, _currency,
_stock, _ipfsCID)`. -/
def createListing (st : RegistryState) (ctx : CallCtx) (listingId name : String)
    (price : Nat) (currency : String) (stock : Nat) (ipfsCID : String) :
    Except RegError RegistryState :=
  if listingId = "" then .error .InvalidInput else                  -- require(bytes(_listingId).length > 0)
  if (alookup listingId st.listings).isSome then .error .AlreadyExists else
  if price = 0 then .error .InvalidInput else                       -- require(_price > 0)
  if stock = 0 then .error .InvalidInput else                       -- require(_stock > 0)
  let l : Listing :=
    { listingId := listingId
      seller := ctx.sender
      name := name
      price := price
      currency := currency
      stock := stock
      ipfsCID := ipfsCID
      active := true
      createdAt := ctx.timestamp }
  .ok { st with
          listings := aset listingId l st.listings
          listingIds := st.listingIds ++ [listingId]
          sellerListings := apush ctx.sender listingId st.sellerListings }

/-- `ListingRegistry.updateListing(_listingId, _price, _stock, _active)`. -/
def updateListing (st : RegistryState) (ctx : CallCtx) (listingId : String)
    (price stock : Nat) (active : Bool) : Except RegError RegistryState :=
  match alookup listingId st.listings with
  | none => .error .NotFound
  | some l =>
    if l.seller ≠ ctx.sender then .error .Unauthorized else
    .ok { st with
            listings := aset listingId
              { l with price := price, stock := stock, active := active } st.listings }

/-- `ListingRegistry.decrementStock(_listingId, _quantity)`; on success returns
the new remaining stock.  There is no caller check in the source. -/
def decrementStock (st : RegistryState) (_ctx : CallCtx) (listingId : String)
    (quantity : Nat) : Except RegError (RegistryState × Nat) :=
  match alookup listingId st.listings with
  | none => .error .NotFound
  | some l =>
    if ¬ l.active then .error .Inactive else
    if l.stock < quantity then .error .InsufficientStock else
    let l' := { l with stock := l.stock - quantity }
    .ok ({ st with listings := aset listingId l' st.listings }, l'.stock)

/-! ### Order Coordinator (`OrderManager.sol`) -/

/-- `enum OrderStatus { Pending, Paid, Shipped, Delivered, Cancelled,
Disputed, Refunded }`. -/
inductive OrderStatus where
  | Pending
  | Paid
  | Shipped
  | Delivered
  | Cancelled
  | Disputed
  | Refunded
deriving DecidableEq, Repr

/-- `struct Order`; `escrowId = none` is the `bytes32(0)` "no escrow"
sentinel. -/
structure Order where
  orderId : String
  listingId : String
  buyer : Address
  seller : Address
  quantity : Nat
  totalAmount : Nat
  status : OrderStatus
  escrowId : Option EscrowId
  createdAt : Nat
  updatedAt : Nat
deriving DecidableEq, Repr

/-- The storage of the `OrderManager` contract, together with its own contract
address `omAddr` (the `msg.sender` the Vault and the Ledger observe on nested
calls) and its `Ownable` owner. -/
structure OMState where
  orders : List (String × Order)
  orderIds : List String
  buyerOrders : List (Address × List String)
  sellerOrders : List (Address × List String)
  omOwner : Address
  omAddr : Address
deriving DecidableEq, Repr

/-- The combined state of the three deployed contracts. -/
structure ChainState where
  reg : RegistryState
  vault : EscrowStorage
  om : OMState
deriving DecidableEq, Repr

/-- Error kinds of the Order Coordinator; nested Vault / Stock Ledger reverts
propagate (a failed nested call aborts the whole Coordinator call). -/
inductive SysError where
  | NotFound        -- "Order does not exist", "Listing does not exist", "No escrow found"
  | AlreadyExists   -- "Order already exists"
  | InvalidInput    -- "Invalid order ID", "Quantity must be greater than 0"
  | Inactive        -- "Listing is not active"
  | InsufficientStock -- "Insufficient stock"
  | Unauthorized    -- "Not authorized", "Not the buyer", "Only seller/buyer can ..."
  | WrongState      -- "Order is not pending", "Order must be paid/shipped first", "Cannot cancel at this stage"
  | IncorrectAmount -- "Incorrect payment amount"
  | vault (e : VaultError)
  | reg (e : RegError)
deriving DecidableEq, Repr

/-- `OrderManager.createOrder(_orderId, _listingId, _quantity)`. -/
def createOrder (cs : ChainState) (ctx : CallCtx) (orderId listingId : String)
    (quantity : Nat) : Except SysError ChainState :=
  if orderId = "" then .error .InvalidInput else                    -- require(bytes(_orderId).length > 0)
  if (alookup orderId cs.om.orders).isSome then .error .AlreadyExists else
  if quantity = 0 then .error .InvalidInput else                    -- require(_quantity > 0)
  match alookup listingId cs.reg.listings with
  | none => .error .NotFound                                        -- getListing reverts
  | some listing =>
    if ¬ listing.active then .error .Inactive else
    if listing.stock < quantity then .error .InsufficientStock else
    -- require(listingRegistry.decrementStock(_listingId, _quantity), ...)
    match decrementStock cs.reg ⟨cs.om.omAddr, 0, ctx.timestamp⟩ listingId quantity with
    | .error e => .error (.reg e)
    | .ok (reg', _) =>
      let o : Order :=
        { orderId := orderId
          listingId := listingId
          buyer := ctx.sender
          seller := listing.seller
          quantity := quantity
          totalAmount := listing.price * quantity
          status := .Pending
          escrowId := none
          createdAt := ctx.timestamp
          updatedAt := ctx.timestamp }
      .ok { cs with
              reg := reg'
              om := { cs.om with
                        orders := aset orderId o cs.om.orders
                        orderIds := cs.om.orderIds ++ [orderId]
                        buyerOrders := apush ctx.sender orderId cs.om.buyerOrders
                        sellerOrders := apush listing.seller orderId cs.om.sellerOrders } }

/-- `OrderManager.payOrder(_orderId)` (payable): creates the escrow in the
Vault — the Vault's `msg.sender` is the OrderManager contract itself — then
links the escrow id and marks the order `Paid`. -/
def payOrder (cs : ChainState) (ctx : CallCtx) (orderId : String) :
    Except SysError (ChainState × EscrowId) :=
  match alookup orderId cs.om.orders with
  | none => .error .NotFound
  | some o =>
    if ctx.sender ≠ o.buyer then .error .Unauthorized else          -- require(order.buyer == msg.sender)
    if o.status ≠ .Pending then .error .WrongState else             -- require(order.status == Pending)
    if ctx.value ≠ o.totalAmount then .error .IncorrectAmount else  -- require(msg.value == order.totalAmount)
    -- escrowContract.createEscrow{value: msg.value}(_orderId, order.seller)
    match createEscrow cs.vault ⟨cs.om.omAddr, ctx.value, ctx.timestamp⟩ orderId o.seller with
    | .error e => .error (.vault e)
    | .ok (vault', eid) =>
      .ok ({ cs with
              vault := vault'
              om := { cs.om with
                        orders := aset orderId
                          { o with escrowId := some eid, status := .Paid,
                                   updatedAt := ctx.timestamp } cs.om.orders } }, eid)

/-- `OrderManager.updateOrderStatus(_orderId, _newStatus, _notes)`: the
current status is validated only when the target status is `Shipped`,
`Delivered` or `Cancelled`; any other target is committed unconditionally. -/
def updateOrderStatus (cs : ChainState) (ctx : CallCtx) (orderId : String)
    (newStatus : OrderStatus) (_notes : String) : Except SysError ChainState :=
  match alookup orderId cs.om.orders with
  | none => .error .NotFound
  | some o =>
    if ¬ (ctx.sender = o.buyer ∨ ctx.sender = o.seller ∨ ctx.sender = cs.om.omOwner) then
      .error .Unauthorized else
    let committed : ChainState :=
      { cs with om := { cs.om with
          orders := aset orderId
            { o with status := newStatus, updatedAt := ctx.timestamp } cs.om.orders } }
    if newStatus = .Shipped then
      if o.status ≠ .Paid then .error .WrongState else
      if ctx.sender ≠ o.seller then .error .Unauthorized else
      .ok committed
    else if newStatus = .Delivered then
      if o.status ≠ .Shipped then .error .WrongState else
      .ok committed
    else if newStatus = .Cancelled then
      if ¬ (o.status = .Pending ∨ o.status = .Paid) then .error .WrongState else
      .ok committed
    else
      .ok committed

/-- `OrderManager.confirmDeliveryAndRelease(_orderId)`: marks the order
`Delivered` and then releases the linked escrow; the Vault observes the
OrderManager contract as the releasing caller. -/
def confirmDeliveryAndRelease (cs : ChainState) (ctx : CallCtx)
    (callOk : Address → Bool) (orderId : String) :
    Except SysError (ChainState × List EscrowAction) :=
  match alookup orderId cs.om.orders with
  | none => .error .NotFound
  | some o =>
    if ctx.sender ≠ o.buyer then .error .Unauthorized else          -- require(msg.sender == order.buyer)
    if o.status ≠ .Shipped then .error .WrongState else             -- require(order.status == Shipped)
    match o.escrowId with
    | none => .error .NotFound                                      -- require(order.escrowId != bytes32(0))
    | some eid =>
      let om' := { cs.om with
        orders := aset orderId
          { o with status := .Delivered, updatedAt := ctx.timestamp } cs.om.orders }
      -- escrowContract.releaseEscrow(order.escrowId)
      match releaseEscrow cs.vault ⟨cs.om.omAddr, 0, ctx.timestamp⟩ callOk eid with
      | .error e => .error (.vault e)
      | .ok (vault', tr) => .ok ({ cs with om := om', vault := vault' }, tr)

/-- `OrderManager.cancelOrderAndRefund(_orderId, _reason)`: cancels a
`Pending` or `Paid` order; when it was `Paid` with a linked escrow the Vault's
`refundEscrow` is invoked (again with the OrderManager contract as the Vault's
caller) and the order is marked `Refunded`. -/
def cancelOrderAndRefund (cs : ChainState) (ctx : CallCtx)
    (callOk : Address → Bool) (orderId _reason : String) :
    Except SysError (ChainState × List EscrowAction) :=
  match alookup orderId cs.om.orders with
  | none => .error .NotFound
  | some o =>
    if ¬ (ctx.sender = o.buyer ∨ ctx.sender = o.seller ∨ ctx.sender = cs.om.omOwner) then
      .error .Unauthorized else
    if ¬ (o.status = .Pending ∨ o.status = .Paid) then .error .WrongState else
    -- order.status = Cancelled; if (oldStatus == Paid && escrowId != 0) refund, status = Refunded
    let cancelled : ChainState :=
      { cs with om := { cs.om with
          orders := aset orderId
            { o with status := .Cancelled, updatedAt := ctx.timestamp }
            cs.om.orders } }
    match o.escrowId with
    | none => .ok (cancelled, [])
    | some eid =>
      if o.status = .Paid then
        -- escrowContract.refundEscrow(order.escrowId); order.status = Refunded
        match refundEscrow cs.vault ⟨cs.om.omAddr, 0, ctx.timestamp⟩ callOk eid with
        | .error e => .error (.vault e)
        | .ok (vault', tr) =>
          .ok ({ cs with
                  vault := vault'
                  om := { cs.om with
                    orders := aset orderId
                      { o with status := .Refunded, updatedAt := ctx.timestamp }
                      cs.om.orders } }, tr)
      else .ok (cancelled, [])

/-! ### Operation alphabets and runs -/

/-- The two payout operations of the Vault (used to quantify over "release or
refund ... in either call order"). -/
inductive MutOp where
  | release
  | refund
deriving DecidableEq, Repr

/-- Apply a payout operation. -/
def applyMut : MutOp → EscrowStorage → CallCtx → (Address → Bool) → EscrowId →
    Except VaultError (EscrowStorage × List EscrowAction)
  | .release => releaseEscrow
  | .refund => refundEscrow

/-- One external call into the Vault, with its call context. -/
inductive VaultOp where
  | create (ctx : CallCtx) (orderId : String) (seller : Address)
  | release (ctx : CallCtx) (callOk : Address → Bool) (id : EscrowId)
  | refund (ctx : CallCtx) (callOk : Address → Bool) (id : EscrowId)
  | dispute (ctx : CallCtx) (id : EscrowId)

/-- Execute one Vault call with revert semantics: a failing call leaves the
storage unchanged. -/
def vaultExec (op : VaultOp) (st : EscrowStorage) : EscrowStorage :=
  match op with
  | .create ctx oid s =>
    match createEscrow st ctx oid s with
    | .ok (st', _) => st'
    | .error _ => st
  | .release ctx callOk id =>
    match releaseEscrow st ctx callOk id with
    | .ok (st', _) => st'
    | .error _ => st
  | .refund ctx callOk id =>
    match refundEscrow st ctx callOk id with
    | .ok (st', _) => st'
    | .error _ => st
  | .dispute ctx id =>
    match initiateDispute st ctx id with
    | .ok st' => st'
    | .error _ => st

/-- Run a sequence of Vault calls. -/
def vaultRun (st : EscrowStorage) : List VaultOp → EscrowStorage
  | [] => st
  | op :: rest => vaultRun (vaultExec op st) rest

/-- One call into the Stock Ledger restricted to the `createListing` /
`decrementStock` alphabet of the stock-conservation property. -/
inductive StockOp where
  | create (ctx : CallCtx) (listingId name : String) (price : Nat)
      (currency : String) (stock : Nat) (ipfsCID : String)
  | dec (ctx : CallCtx) (listingId : String) (quantity : Nat)

/-- Execute one such call with revert semantics, reporting success. -/
def stockExec (op : StockOp) (st : RegistryState) : RegistryState × Bool :=
  match op with
  | .create ctx lid nm p cur s cid =>
    match createListing st ctx lid nm p cur s cid with
    | .ok st' => (st', true)
    | .error _ => (st, false)
  | .dec ctx lid q =>
    match decrementStock st ctx lid q with
    | .ok (st', _) => (st', true)
    | .error _ => (st, false)

/-- Run a sequence of `createListing`/`decrementStock` calls. -/
def stockRun (st : RegistryState) : List StockOp → RegistryState
  | [] => st
  | op :: rest => stockRun (stockExec op st).1 rest

/-- The sum of the quantities of the *successful* `decrementStock` calls for
listing `lid` along a run. -/
def decSum (lid : String) (st : RegistryState) : List StockOp → Nat
  | [] => 0
  | op :: rest =>
    (match op with
     | .dec ctx lid' q =>
       if lid' = lid ∧ (decrementStock st ctx lid' q).isOk then q else 0
     | _ => 0) + decSum lid (stockExec op st).1 rest

/-- One call into the Stock Ledger (full mutating alphabet). -/
inductive RegOp where
  | create (ctx : CallCtx) (listingId name : String) (price : Nat)
      (currency : String) (stock : Nat) (ipfsCID : String)
  | update (ctx : CallCtx) (listingId : String) (price stock : Nat) (active : Bool)
  | dec (ctx : CallCtx) (listingId : String) (quantity : Nat)

/-- Execute one Stock Ledger call with revert semantics. -/
def regExec (op : RegOp) (st : RegistryState) : RegistryState :=
  match op with
  | .create ctx lid nm p cur s cid =>
    match createListing st ctx lid nm p cur s cid with
    | .ok st' => st'
    | .error _ => st
  | .update ctx lid p s a =>
    match updateListing st ctx lid p s a with
    | .ok st' => st'
    | .error _ => st
  | .dec ctx lid q =>
    match decrementStock st ctx lid q with
    | .ok (st', _) => st'
    | .error _ => st

/-- One external call into the Order Coordinator. -/
inductive OMOp where
  | createOrder (ctx : CallCtx) (orderId listingId : String) (quantity : Nat)
  | payOrder (ctx : CallCtx) (orderId : String)
  | updateOrderStatus (ctx : CallCtx) (orderId : String) (newStatus : OrderStatus) (notes : String)
  | confirmDeliveryAndRelease (ctx : CallCtx) (callOk : Address → Bool) (orderId : String)
  | cancelOrderAndRefund (ctx : CallCtx) (callOk : Address → Bool) (orderId reason : String)

/-- Apply one Order Coordinator call, returning the successor state on
success. -/
def omStep (op : OMOp) (cs : ChainState) : Except SysError ChainState :=
  match op with
  | .createOrder ctx oid lid q => createOrder cs ctx oid lid q
  | .payOrder ctx oid => (payOrder cs ctx oid).map (·.1)
  | .updateOrderStatus ctx oid ns notes => updateOrderStatus cs ctx oid ns notes
  | .confirmDeliveryAndRelease ctx callOk oid =>
    (confirmDeliveryAndRelease cs ctx callOk oid).map (·.1)
  | .cancelOrderAndRefund ctx callOk oid reason =>
    (cancelOrderAndRefund cs ctx callOk oid reason).map (·.1)

/-! ### Concrete states used by the witnesses -/

/-- A concrete escrow id for a locked demo escrow (order "ord1", payer 1,
created at time 100). -/
def demoEid : EscrowId := ⟨"ord1", 1, 100⟩

/-- A locked demo escrow: buyer 1, seller 2, amount 500, created at 100. -/
def demoEscrow : EscrowDetails :=
  { escrowId := demoEid
    orderId := "ord1"
    buyer := 1
    seller := 2
    amount := 500
    state := .Locked
    createdAt := 100
    releaseTime := 100 + ESCROW_PERIOD
    disputed := false }

/-- Vault storage holding exactly the locked demo escrow; owner is address 7. -/
def demoVault : EscrowStorage :=
  { escrows := [(demoEid, demoEscrow)]
    orderToEscrow := [("ord1", demoEid)]
    escrowIds := [demoEid]
    vaultOwner := 7 }

/-- The demo vault after the demo escrow has been released. -/
def demoVaultReleased : EscrowStorage :=
  { demoVault with
      escrows := aset demoEid { demoEscrow with state := .Released } demoVault.escrows }

/-- The demo vault after a dispute has been raised on the demo escrow. -/
def demoVaultDisputed : EscrowStorage :=
  { demoVault with
      escrows := aset demoEid
        { demoEscrow with disputed := true, state := .Disputed } demoVault.escrows }

/-- A demo listing: sold by address 2 at price 250 with stock 10. -/
def demoListing : Listing :=
  { listingId := "lst1"
    seller := 2
    name := "widget"
    price := 250
    currency := "ETH"
    stock := 10
    ipfsCID := "cid1"
    active := true
    createdAt := 50 }

/-- A demo Stock Ledger holding exactly `demoListing`. -/
def demoReg : RegistryState :=
  { listings := [("lst1", demoListing)]
    listingIds := ["lst1"]
    sellerListings := [(2, ["lst1"])] }

/-- A demo order parameterised by its status and linked escrow: order "ord1"
over "lst1", buyer 1, seller 2, 2 units, total 500. -/
def demoOrder (status : OrderStatus) (escrowId : Option EscrowId) : Order :=
  { orderId := "ord1"
    listingId := "lst1"
    buyer := 1
    seller := 2
    quantity := 2
    totalAmount := 500
    status := status
    escrowId := escrowId
    createdAt := 100
    updatedAt := 100 }

/-- A demo Order Coordinator holding exactly the given order; the OrderManager
contract lives at address 50 and its `Ownable` owner (the admin) is 9. -/
def demoOM (o : Order) : OMState :=
  { orders := [("ord1", o)]
    orderIds := ["ord1"]
    buyerOrders := [(1, ["ord1"])]
    sellerOrders := [(2, ["ord1"])]
    omOwner := 9
    omAddr := 50 }

/-- A demo combined state from an order and a vault storage. -/
def demoChain (o : Order) (v : EscrowStorage) : ChainState :=
  { reg := demoReg, vault := v, om := demoOM o }

/-- Demo chain with a `Shipped` order linked to the demo escrow. -/
def c4Before : ChainState := demoChain (demoOrder .Shipped (some demoEid)) demoVault

/-- `c4Before` after the buyer marks the order `Delivered` through
`updateOrderStatus` at time 400. -/
def c4After : ChainState :=
  { c4Before with om := { c4Before.om with
      orders := aset "ord1"
        { demoOrder .Shipped (some demoEid) with status := .Delivered, updatedAt := 400 }
        c4Before.om.orders } }

/-- Demo chain with a (terminal) `Delivered` order linked to the demo escrow. -/
def c10Before : ChainState := demoChain (demoOrder .Delivered (some demoEid)) demoVault

/-- Execute one Order Coordinator call with revert semantics: a failing call
(including one whose nested Vault or Stock Ledger call failed) leaves the
entire combined state unchanged. -/
def omExec (op : OMOp) (cs : ChainState) : ChainState :=
  match omStep op cs with
  | .ok cs' => cs'
  | .error _ => cs

/-- An empty Vault owned by address 7 (the deployer; ownership is never
transferred to the OrderManager in the deployment script). -/
def demoVault0 : EscrowStorage :=
  { escrows := [], orderToEscrow := [], escrowIds := [], vaultOwner := 7 }

/-- Demo chain with a `Pending`, unpaid order and the empty Vault. -/
def c3Before : ChainState := demoChain (demoOrder .Pending none) demoVault0

/-- The escrow id minted when `payOrder` is run on `c3Before` at time 200:
the Vault-level caller is the OrderManager address 50. -/
def payEid : EscrowId := ⟨"ord1", 50, 200⟩

/-- The escrow minted by that `payOrder`: its recorded buyer is the
OrderManager contract address 50, not the end buyer 1. -/
def payEscrow : EscrowDetails :=
  { escrowId := payEid
    orderId := "ord1"
    buyer := 50
    seller := 2
    amount := 500
    state := .Locked
    createdAt := 200
    releaseTime := 200 + ESCROW_PERIOD
    disputed := false }

/-- `c3Before` after the buyer pays order "ord1" at time 200. -/
def c3Paid : ChainState :=
  { c3Before with
      vault := { demoVault0 with
                   escrows := aset payEid payEscrow demoVault0.escrows
                   orderToEscrow := aset "ord1" payEid demoVault0.orderToEscrow
                   escrowIds := demoVault0.escrowIds ++ [payEid] }
      om := { c3Before.om with
                orders := aset "ord1"
                  { demoOrder .Pending none with
                      escrowId := some payEid, status := .Paid, updatedAt := 200 }
                  c3Before.om.orders } }

/-- Well-formedness of the Vault storage, maintained by every operation from
the empty storage up: every stored escrow is indexed by `orderToEscrow` under
its order id.  (The contract maintains this because `createEscrow` writes
both mappings together.) -/
def VaultInv (st : EscrowStorage) : Prop :=
  ∀ id : EscrowId, (alookup id st.escrows).isSome →
    alookup id.orderId st.orderToEscrow = some id

/-! ### Theorems -/

/-- Any mutating Vault call on an escrow whose state is not `Locked` is
rejected by the `require(escrow.state == EscrowState.Locked)` guard, i.e.
with `WrongState`. -/
theorem mutating_reject_of_not_locked (st : EscrowStorage) (id : EscrowId)
    (e : EscrowDetails) (he : alookup id st.escrows = some e)
    (hs : e.state ≠ .Locked) (ctx : CallCtx) (ok : Address → Bool) :
    releaseEscrow st ctx ok id = .error .WrongState ∧
    refundEscrow st ctx ok id = .error .WrongState ∧
    initiateDispute st ctx id = .error .WrongState := by
  unfold releaseEscrow refundEscrow initiateDispute
  rw [he]
  simp [hs]

/-- **C1.** For any escrow, calling `releaseEscrow` or `refundEscrow` twice in
sequence results in exactly one successful value transfer and one `WrongState`
rejection, in either call order: a successful payout call emits exactly one
transfer of the held amount, strictly preceded by the write of the terminal
state (`Released`/`Refunded`) — so the storage returned (which is already in
force during the external transfer) makes every further mutating call on the
escrow, including a reentrant one, fail with `WrongState`; and in general
every mutating call on an escrow whose state is terminal is rejected with
`WrongState`. -/
theorem C1_exactly_once_payout
    (st : EscrowStorage) (id : EscrowId) (e : EscrowDetails)
    (he : alookup id st.escrows = some e)
    (op1 : MutOp) (ctx1 : CallCtx) (ok1 : Address → Bool)
    (st1 : EscrowStorage) (tr1 : List EscrowAction)
    (h1 : applyMut op1 st ctx1 ok1 id = .ok (st1, tr1)) :
    (∃ s recip, (s = EscrowState.Released ∨ s = EscrowState.Refunded) ∧
        tr1 = [EscrowAction.setState id s, EscrowAction.transfer id recip e.amount]) ∧
    (∀ (op2 : MutOp) (ctx2 : CallCtx) (ok2 : Address → Bool),
        applyMut op2 st1 ctx2 ok2 id = .error .WrongState) ∧
    (∀ ctx2 : CallCtx, initiateDispute st1 ctx2 id = .error .WrongState) ∧
    (∀ (st' : EscrowStorage) (e' : EscrowDetails),
        alookup id st'.escrows = some e' →
        e'.state = .Released ∨ e'.state = .Refunded →
        ∀ (op : MutOp) (ctx : CallCtx) (ok : Address → Bool),
          applyMut op st' ctx ok id = .error .WrongState ∧
          initiateDispute st' ctx id = .error .WrongState) := by
  have terminal : ∀ (st' : EscrowStorage) (e' : EscrowDetails),
      alookup id st'.escrows = some e' →
      e'.state = .Released ∨ e'.state = .Refunded →
      ∀ (op : MutOp) (ctx : CallCtx) (ok : Address → Bool),
        applyMut op st' ctx ok id = .error .WrongState ∧
        initiateDispute st' ctx id = .error .WrongState := by
    intro st' e' he' hterm op ctx ok
    have hs : e'.state ≠ .Locked := by
      rcases hterm with h | h <;> simp [h]
    have hrej := mutating_reject_of_not_locked st' id e' he' hs ctx ok
    cases op
    · exact ⟨hrej.1, hrej.2.2⟩
    · exact ⟨hrej.2.1, hrej.2.2⟩
  cases op1 with
  | release =>
    rw [show applyMut .release = releaseEscrow from rfl] at h1
    by_cases hlk : e.state = .Locked
    · by_cases hd : e.disputed = true
      · rw [show releaseEscrow st ctx1 ok1 id = .error .Disputed by
              unfold releaseEscrow; rw [he]; simp [hlk, hd]] at h1
        exact absurd h1 (by simp)
      · by_cases hauth : ctx1.sender = e.buyer ∨ ctx1.sender = st.vaultOwner ∨
            e.releaseTime ≤ ctx1.timestamp
        · by_cases hok : ok1 e.seller = true
          · rw [show releaseEscrow st ctx1 ok1 id =
                  .ok ({ st with escrows := aset id { e with state := .Released } st.escrows },
                       [.setState id .Released, .transfer id e.seller e.amount]) by
                  unfold releaseEscrow; rw [he]; simp [hlk, hd, hauth, hok]] at h1
            have hpair := Except.ok.inj h1
            obtain ⟨rfl, rfl⟩ :
                ({ st with escrows := aset id { e with state := .Released } st.escrows } = st1) ∧
                ([EscrowAction.setState id .Released,
                  EscrowAction.transfer id e.seller e.amount] = tr1) :=
              ⟨congrArg Prod.fst hpair, congrArg Prod.snd hpair⟩
            have hlook1 : alookup id (aset id { e with state := .Released } st.escrows) =
                some { e with state := .Released } := alookup_aset_self id _ st.escrows
            refine ⟨⟨.Released, e.seller, Or.inl rfl, rfl⟩, ?_, ?_, terminal⟩
            · intro op2 ctx2 ok2
              exact (terminal _ _ hlook1 (Or.inl rfl) op2 ctx2 ok2).1
            · intro ctx2
              exact (terminal _ _ hlook1 (Or.inl rfl) .release ctx2 ok1).2
          · rw [show releaseEscrow st ctx1 ok1 id = .error .TransferFailed by
                  unfold releaseEscrow; rw [he]; simp [hlk, hd, hauth, hok]] at h1
            exact absurd h1 (by simp)
        · rw [show releaseEscrow st ctx1 ok1 id = .error .Unauthorized by
                unfold releaseEscrow; rw [he]; simp [hlk, hd, hauth]] at h1
          exact absurd h1 (by simp)
    · rw [(mutating_reject_of_not_locked st id e he hlk ctx1 ok1).1] at h1
      exact absurd h1 (by simp)
  | refund =>
    rw [show applyMut .refund = refundEscrow from rfl] at h1
    by_cases hlk : e.state = .Locked
    · by_cases hauth : ctx1.sender = e.seller ∨ ctx1.sender = st.vaultOwner ∨
          (e.disputed = true ∧ e.createdAt + DISPUTE_WINDOW ≤ ctx1.timestamp)
      · by_cases hok : ok1 e.buyer = true
        · rw [show refundEscrow st ctx1 ok1 id =
                .ok ({ st with escrows := aset id { e with state := .Refunded } st.escrows },
                     [.setState id .Refunded, .transfer id e.buyer e.amount]) by
                unfold refundEscrow; rw [he]; simp [hlk, hauth, hok]] at h1
          have hpair := Except.ok.inj h1
          obtain ⟨rfl, rfl⟩ :
              ({ st with escrows := aset id { e with state := .Refunded } st.escrows } = st1) ∧
              ([EscrowAction.setState id .Refunded,
                EscrowAction.transfer id e.buyer e.amount] = tr1) :=
            ⟨congrArg Prod.fst hpair, congrArg Prod.snd hpair⟩
          have hlook1 : alookup id (aset id { e with state := .Refunded } st.escrows) =
              some { e with state := .Refunded } := alookup_aset_self id _ st.escrows
          refine ⟨⟨.Refunded, e.buyer, Or.inr rfl, rfl⟩, ?_, ?_, terminal⟩
          · intro op2 ctx2 ok2
            exact (terminal _ _ hlook1 (Or.inr rfl) op2 ctx2 ok2).1
          · intro ctx2
            exact (terminal _ _ hlook1 (Or.inr rfl) .refund ctx2 ok1).2
        · rw [show refundEscrow st ctx1 ok1 id = .error .TransferFailed by
                unfold refundEscrow; rw [he]; simp [hlk, hauth, hok]] at h1
          exact absurd h1 (by simp)
      · rw [show refundEscrow st ctx1 ok1 id = .error .Unauthorized by
              unfold refundEscrow; rw [he]; simp [hlk, hauth]] at h1
        exact absurd h1 (by simp)
    · rw [(mutating_reject_of_not_locked st id e he hlk ctx1 ok1).2.1] at h1
      exact absurd h1 (by simp)

/-- Witness for C1 at a concrete input: the locked demo escrow is released by
its buyer, and afterwards every payout or dispute call on it is rejected with
`WrongState`. -/
theorem C1_exactly_once_payout_witness :
    (∃ s recip, (s = EscrowState.Released ∨ s = EscrowState.Refunded) ∧
        [EscrowAction.setState demoEid EscrowState.Released,
         EscrowAction.transfer demoEid 2 500] =
          [EscrowAction.setState demoEid s,
           EscrowAction.transfer demoEid recip demoEscrow.amount]) ∧
    (∀ (op2 : MutOp) (ctx2 : CallCtx) (ok2 : Address → Bool),
        applyMut op2 demoVaultReleased ctx2 ok2 demoEid = .error .WrongState) ∧
    (∀ ctx2 : CallCtx, initiateDispute demoVaultReleased ctx2 demoEid = .error .WrongState) ∧
    (∀ (st' : EscrowStorage) (e' : EscrowDetails),
        alookup demoEid st'.escrows = some e' →
        e'.state = .Released ∨ e'.state = .Refunded →
        ∀ (op : MutOp) (ctx : CallCtx) (ok : Address → Bool),
          applyMut op st' ctx ok demoEid = .error .WrongState ∧
          initiateDispute st' ctx demoEid = .error .WrongState) :=
  C1_exactly_once_payout demoVault demoEid demoEscrow (by rfl) .release ⟨1, 0, 200⟩
    (fun _ => true) demoVaultReleased
    [.setState demoEid .Released, .transfer demoEid 2 500] (by rfl)

/-- Shape of a successful `initiateDispute`: the escrow existed, and in the
new storage it is flagged `disputed` with state `Disputed`. -/
theorem initiateDispute_ok (st : EscrowStorage) (ctx : CallCtx) (id : EscrowId)
    (st' : EscrowStorage) (h : initiateDispute st ctx id = .ok st') :
    ∃ e, alookup id st.escrows = some e ∧
      alookup id st'.escrows = some { e with disputed := true, state := .Disputed } := by
  unfold initiateDispute at h
  split at h
  next => exact absurd h (by simp)
  next e halo =>
    split at h
    next => exact absurd h (by simp)
    next hlk =>
      split at h
      next => exact absurd h (by simp)
      next hd =>
        split at h
        next => exact absurd h (by simp)
        next hauth =>
          obtain rfl := Except.ok.inj h
          exact ⟨e, halo, alookup_aset_self id _ st.escrows⟩

/-- **C2.** The claim asserts that once `initiateDispute` has succeeded,
`refundEscrow` fails before `createdAt + DISPUTE_WINDOW` and succeeds once
`now >= createdAt + DISPUTE_WINDOW`.  The code disagrees on the second half:
`initiateDispute` moves the escrow state from `Locked` to `Disputed`, and
`refundEscrow` requires `state == Locked` *before* consulting its
`disputed && now >= createdAt + DISPUTE_WINDOW` authorization clause, so after
a dispute every `refundEscrow` (and `releaseEscrow`) call — for every caller
and every timestamp, in particular any timestamp at or past the dispute
window — is rejected with `WrongState`.  The window clause of `refundEscrow`
is unreachable and a disputed escrow can never be paid out. -/
theorem C2_disputed_refund_rejected_forever
    (st : EscrowStorage) (ctx : CallCtx) (id : EscrowId) (st' : EscrowStorage)
    (h : initiateDispute st ctx id = .ok st') :
    ∀ (ctx2 : CallCtx) (ok : Address → Bool),
      refundEscrow st' ctx2 ok id = .error .WrongState ∧
      releaseEscrow st' ctx2 ok id = .error .WrongState := by
  obtain ⟨e, -, hlook⟩ := initiateDispute_ok st ctx id st' h
  intro ctx2 ok
  have hrej := mutating_reject_of_not_locked st' id _ hlook (by simp) ctx2 ok
  exact ⟨hrej.2.1, hrej.1⟩

/-- Witness for C2 at a concrete input: the demo escrow (created at time 100,
amount 500) is disputed by its buyer; a refund attempt by the seller exactly
at the dispute window (`100 + DISPUTE_WINDOW`) — when the claim says it must
succeed — is rejected with `WrongState`, and so is the matching release
attempt. -/
theorem C2_disputed_refund_rejected_forever_witness :
    refundEscrow demoVaultDisputed ⟨2, 0, 100 + DISPUTE_WINDOW⟩ (fun _ => true)
        demoEid = .error .WrongState ∧
    releaseEscrow demoVaultDisputed ⟨2, 0, 100 + DISPUTE_WINDOW⟩ (fun _ => true)
        demoEid = .error .WrongState :=
  C2_disputed_refund_rejected_forever demoVault ⟨1, 0, 100⟩ demoEid
    demoVaultDisputed (by rfl) ⟨2, 0, 100 + DISPUTE_WINDOW⟩ (fun _ => true)

/-- Inversion of a successful `createEscrow`: all four guards passed, the id
is the hash preimage, and the new record is `Locked` with `buyer = msg.sender`
(the immediate caller), `amount = msg.value`. -/
theorem createEscrow_ok (st : EscrowStorage) (ctx : CallCtx) (oid : String)
    (seller : Address) (st' : EscrowStorage) (eid : EscrowId)
    (h : createEscrow st ctx oid seller = .ok (st', eid)) :
    ctx.value ≠ 0 ∧ seller ≠ 0 ∧ seller ≠ ctx.sender ∧
    alookup oid st.orderToEscrow = none ∧
    eid = ⟨oid, ctx.sender, ctx.timestamp⟩ ∧
    st' = { st with
      escrows := aset eid
        { escrowId := eid, orderId := oid, buyer := ctx.sender, seller := seller,
          amount := ctx.value, state := .Locked, createdAt := ctx.timestamp,
          releaseTime := ctx.timestamp + ESCROW_PERIOD, disputed := false }
        st.escrows
      orderToEscrow := aset oid eid st.orderToEscrow
      escrowIds := st.escrowIds ++ [eid] } := by
  unfold createEscrow at h
  split at h
  next => exact absurd h (by simp)
  next hval =>
  split at h
  next => exact absurd h (by simp)
  next hz =>
  split at h
  next => exact absurd h (by simp)
  next hss =>
  split at h
  next => exact absurd h (by simp)
  next hfresh =>
  have hpair := Except.ok.inj h
  obtain ⟨rfl, rfl⟩ :
      (_ = st') ∧ ((⟨oid, ctx.sender, ctx.timestamp⟩ : EscrowId) = eid) :=
    ⟨congrArg Prod.fst hpair, congrArg Prod.snd hpair⟩
  exact ⟨hval, hz, hss, hfresh, rfl, rfl⟩

/-- Inversion of a successful `payOrder`: the order existed as `Pending`, the
caller was its buyer, the attached value equalled `totalAmount`, the Vault
minted an escrow with the OrderManager address as the Vault-level caller, and
the order was rewritten to `Paid` with the escrow linked. -/
theorem payOrder_ok (cs : ChainState) (ctx : CallCtx) (oid : String)
    (cs' : ChainState) (eid : EscrowId)
    (h : payOrder cs ctx oid = .ok (cs', eid)) :
    ∃ o vault', alookup oid cs.om.orders = some o ∧
      ctx.sender = o.buyer ∧ o.status = .Pending ∧ ctx.value = o.totalAmount ∧
      createEscrow cs.vault ⟨cs.om.omAddr, ctx.value, ctx.timestamp⟩ oid o.seller =
        .ok (vault', eid) ∧
      cs' = { cs with
        vault := vault'
        om := { cs.om with
                  orders := aset oid
                    { o with escrowId := some eid, status := .Paid,
                             updatedAt := ctx.timestamp } cs.om.orders } } := by
  unfold payOrder at h
  split at h
  next => exact absurd h (by simp)
  next o ho =>
  split at h
  next => exact absurd h (by simp)
  next hbuy =>
  split at h
  next => exact absurd h (by simp)
  next hpend =>
  split at h
  next => exact absurd h (by simp)
  next hval =>
  split at h
  next => exact absurd h (by simp)
  next vault' eid' hce =>
  have hpair := Except.ok.inj h
  obtain ⟨rfl, rfl⟩ : (_ = cs') ∧ (eid' = eid) :=
    ⟨congrArg Prod.fst hpair, congrArg Prod.snd hpair⟩
  exact ⟨o, vault', ho, not_not.mp (by simpa using hbuy), not_not.mp (by simpa using hpend),
    not_not.mp (by simpa using hval), hce, rfl⟩

/-- Inversion of a successful `updateOrderStatus`: the caller was buyer,
seller or admin; the current status was validated only when the target was
`Shipped`, `Delivered` or `Cancelled`; and the order was rewritten to the
target status with everything else (in particular the Vault) untouched. -/
theorem updateOrderStatus_ok (cs : ChainState) (ctx : CallCtx) (oid : String)
    (ns : OrderStatus) (notes : String) (cs' : ChainState)
    (h : updateOrderStatus cs ctx oid ns notes = .ok cs') :
    ∃ o, alookup oid cs.om.orders = some o ∧
      (ctx.sender = o.buyer ∨ ctx.sender = o.seller ∨ ctx.sender = cs.om.omOwner) ∧
      (ns = .Shipped → o.status = .Paid ∧ ctx.sender = o.seller) ∧
      (ns = .Delivered → o.status = .Shipped) ∧
      (ns = .Cancelled → o.status = .Pending ∨ o.status = .Paid) ∧
      cs' = { cs with om := { cs.om with
                orders := aset oid
                  { o with status := ns, updatedAt := ctx.timestamp }
                  cs.om.orders } } := by
  simp only [updateOrderStatus] at h
  split at h
  next => exact absurd h (by simp)
  next o ho =>
  split at h
  next => exact absurd h (by simp)
  next hauth =>
  rw [not_not] at hauth
  split at h
  next hShip =>
    split at h
    next => exact absurd h (by simp)
    next hPaid =>
    split at h
    next => exact absurd h (by simp)
    next hSeller =>
    obtain rfl := Except.ok.inj h
    refine ⟨o, ho, hauth, ?_, ?_, ?_, rfl⟩
    · exact fun _ => ⟨not_not.mp hPaid, not_not.mp hSeller⟩
    · intro hD; rw [hShip] at hD; exact absurd hD (by simp)
    · intro hC; rw [hShip] at hC; exact absurd hC (by simp)
  next hShip =>
  split at h
  next hDel =>
    split at h
    next => exact absurd h (by simp)
    next hShipped =>
    obtain rfl := Except.ok.inj h
    refine ⟨o, ho, hauth, ?_, ?_, ?_, rfl⟩
    · exact fun hS => absurd hS hShip
    · exact fun _ => not_not.mp hShipped
    · intro hC; rw [hDel] at hC; exact absurd hC (by simp)
  next hDel =>
  split at h
  next hCan =>
    split at h
    next => exact absurd h (by simp)
    next hPP =>
    obtain rfl := Except.ok.inj h
    refine ⟨o, ho, hauth, ?_, ?_, ?_, rfl⟩
    · exact fun hS => absurd hS hShip
    · exact fun hD => absurd hD hDel
    · exact fun _ => not_not.mp hPP
  next hCan =>
  obtain rfl := Except.ok.inj h
  refine ⟨o, ho, hauth, ?_, ?_, ?_, rfl⟩
  · exact fun hS => absurd hS hShip
  · exact fun hD => absurd hD hDel
  · exact fun hC => absurd hC hCan

/-- Inversion of a successful `createOrder` (only the facts about the order
book that the lifecycle claims need): a fresh `Pending` order was inserted
and the Vault was not touched. -/
theorem createOrder_ok (cs : ChainState) (ctx : CallCtx) (oid lid : String)
    (q : Nat) (cs' : ChainState) (h : createOrder cs ctx oid lid q = .ok cs') :
    ∃ (o : Order), o.status = .Pending ∧
      cs'.om.orders = aset oid o cs.om.orders ∧ cs'.vault = cs.vault := by
  unfold createOrder at h
  split at h
  next => exact absurd h (by simp)
  next =>
  split at h
  next => exact absurd h (by simp)
  next =>
  split at h
  next => exact absurd h (by simp)
  next =>
  split at h
  next => exact absurd h (by simp)
  next listing hlst =>
  split at h
  next => exact absurd h (by simp)
  next =>
  split at h
  next => exact absurd h (by simp)
  next =>
  split at h
  next => exact absurd h (by simp)
  next reg' ns hdec =>
  obtain rfl := Except.ok.inj h
  exact ⟨_, rfl, rfl, rfl⟩

/-- Inversion of a successful `confirmDeliveryAndRelease`: the caller was the
buyer, the order was `Shipped` with a linked escrow, the order was rewritten
to `Delivered`, and the linked escrow was released through the Vault with the
OrderManager address as the Vault-level caller. -/
theorem confirmDeliveryAndRelease_ok (cs : ChainState) (ctx : CallCtx)
    (callOk : Address → Bool) (oid : String) (cs' : ChainState)
    (tr : List EscrowAction)
    (h : confirmDeliveryAndRelease cs ctx callOk oid = .ok (cs', tr)) :
    ∃ o eid vault', alookup oid cs.om.orders = some o ∧
      ctx.sender = o.buyer ∧ o.status = .Shipped ∧ o.escrowId = some eid ∧
      releaseEscrow cs.vault ⟨cs.om.omAddr, 0, ctx.timestamp⟩ callOk eid =
        .ok (vault', tr) ∧
      cs' = { cs with
        vault := vault'
        om := { cs.om with
                  orders := aset oid
                    { o with status := .Delivered, updatedAt := ctx.timestamp }
                    cs.om.orders } } := by
  simp only [confirmDeliveryAndRelease] at h
  split at h
  next => exact absurd h (by simp)
  next o ho =>
  split at h
  next => exact absurd h (by simp)
  next hbuy =>
  split at h
  next => exact absurd h (by simp)
  next hship =>
  split at h
  next => exact absurd h (by simp)
  next eid heid =>
  split at h
  next => exact absurd h (by simp)
  next vault' tr' hrel =>
  have hpair := Except.ok.inj h
  obtain ⟨rfl, rfl⟩ : (_ = cs') ∧ (tr' = tr) :=
    ⟨congrArg Prod.fst hpair, congrArg Prod.snd hpair⟩
  exact ⟨o, eid, vault', ho, not_not.mp (by simpa using hbuy),
    not_not.mp (by simpa using hship), heid, hrel, rfl⟩

/-- Inversion of a successful `cancelOrderAndRefund`: the caller was buyer,
seller or admin and the order was `Pending` or `Paid`; either it was `Paid`
with a linked escrow — then the Vault refunded that escrow (caller: the
OrderManager address) and the order became `Refunded` — or no refund was due
and the order became `Cancelled` with the Vault untouched. -/
theorem cancelOrderAndRefund_ok (cs : ChainState) (ctx : CallCtx)
    (callOk : Address → Bool) (oid reason : String) (cs' : ChainState)
    (tr : List EscrowAction)
    (h : cancelOrderAndRefund cs ctx callOk oid reason = .ok (cs', tr)) :
    ∃ o, alookup oid cs.om.orders = some o ∧
      (ctx.sender = o.buyer ∨ ctx.sender = o.seller ∨ ctx.sender = cs.om.omOwner) ∧
      (o.status = .Pending ∨ o.status = .Paid) ∧
      ((∃ eid vault', o.status = .Paid ∧ o.escrowId = some eid ∧
          refundEscrow cs.vault ⟨cs.om.omAddr, 0, ctx.timestamp⟩ callOk eid =
            .ok (vault', tr) ∧
          cs' = { cs with
            vault := vault'
            om := { cs.om with
                      orders := aset oid
                        { o with status := .Refunded, updatedAt := ctx.timestamp }
                        cs.om.orders } }) ∨
        ((o.status ≠ .Paid ∨ o.escrowId = none) ∧ tr = [] ∧
          cs' = { cs with om := { cs.om with
                    orders := aset oid
                      { o with status := .Cancelled, updatedAt := ctx.timestamp }
                      cs.om.orders } })) := by
  simp only [cancelOrderAndRefund] at h
  split at h
  next => exact absurd h (by simp)
  next o ho =>
  split at h
  next => exact absurd h (by simp)
  next hauth =>
  rw [not_not] at hauth
  split at h
  next => exact absurd h (by simp)
  next hpp =>
  rw [not_not] at hpp
  split at h
  next heid =>
    have hpair := Except.ok.inj h
    obtain ⟨rfl, rfl⟩ : (_ = cs') ∧ (([] : List EscrowAction) = tr) :=
      ⟨congrArg Prod.fst hpair, congrArg Prod.snd hpair⟩
    exact ⟨o, ho, hauth, hpp, Or.inr ⟨Or.inr heid, rfl, rfl⟩⟩
  next eid heid =>
  split at h
  next hpaid =>
    split at h
    next => exact absurd h (by simp)
    next vault' tr' href =>
    have hpair := Except.ok.inj h
    obtain ⟨rfl, rfl⟩ : (_ = cs') ∧ (tr' = tr) :=
      ⟨congrArg Prod.fst hpair, congrArg Prod.snd hpair⟩
    exact ⟨o, ho, hauth, hpp, Or.inl ⟨eid, vault', hpaid, heid, href, rfl⟩⟩
  next hpaid =>
    have hpair := Except.ok.inj h
    obtain ⟨rfl, rfl⟩ : (_ = cs') ∧ (([] : List EscrowAction) = tr) :=
      ⟨congrArg Prod.fst hpair, congrArg Prod.snd hpair⟩
    exact ⟨o, ho, hauth, hpp, Or.inr ⟨Or.inl hpaid, rfl, rfl⟩⟩

/-- **C4, counterexample.**  The claim says no `updateOrderStatus` call ever
sets an order's status to `Delivered`.  But on a `Shipped` demo order the
buyer's `updateOrderStatus(..., Delivered, ...)` call succeeds and leaves the
order `Delivered` (without touching the escrow). -/
theorem C4_counterexample :
    (updateOrderStatus (demoChain (demoOrder .Shipped (some demoEid)) demoVault)
        ⟨1, 0, 400⟩ "ord1" .Delivered "notes").map
      (fun cs' => (alookup "ord1" cs'.om.orders, cs'.vault)) =
    .ok (some { demoOrder .Shipped (some demoEid) with
                  status := .Delivered, updatedAt := 400 }, demoVault) := by
  rfl

/-- **C4, amended.**  In every Order Coordinator step, an order's status
becomes `Delivered` only (a) by `confirmDeliveryAndRelease` (buyer-only, from
`Shipped`, releasing the linked escrow), or (b) by `updateOrderStatus` with
target `Delivered`, which requires the current status to be `Shipped` and an
authorized caller (buyer, seller or admin) but leaves the Vault — hence the
escrow — untouched; no other operation produces a `Delivered` order. -/
theorem C4_delivered_sources
    (op : OMOp) (cs cs' : ChainState) (h : omStep op cs = .ok cs')
    (oid : String) (o' : Order)
    (ho' : alookup oid cs'.om.orders = some o')
    (hDel : o'.status = .Delivered) :
    (∃ o, alookup oid cs.om.orders = some o ∧ o.status = .Delivered) ∨
    (∃ ctx notes, op = .updateOrderStatus ctx oid .Delivered notes ∧
      (∃ o, alookup oid cs.om.orders = some o ∧ o.status = .Shipped) ∧
      cs'.vault = cs.vault) ∨
    (∃ ctx callOk, op = .confirmDeliveryAndRelease ctx callOk oid) := by
  cases op with
  | createOrder ctx oid' lid q =>
    simp only [omStep] at h
    obtain ⟨o, hP, horders, -⟩ := createOrder_ok cs ctx oid' lid q cs' h
    by_cases heq : oid' = oid
    · subst heq
      rw [horders, alookup_aset_self] at ho'
      obtain rfl := Option.some.inj ho'
      rw [hP] at hDel
      exact absurd hDel (by simp)
    · left
      rw [horders, alookup_aset_ne _ _ heq] at ho'
      exact ⟨o', ho', hDel⟩
  | payOrder ctx oid' =>
    simp only [omStep] at h
    cases hp : payOrder cs ctx oid' with
    | error e => rw [hp] at h; exact absurd h (by simp [Except.map])
    | ok p =>
      rw [hp] at h
      simp only [Except.map] at h
      obtain rfl := Except.ok.inj h
      obtain ⟨o, vault', ho, -, -, -, -, hcs⟩ :=
        payOrder_ok cs ctx oid' p.1 p.2 (by rw [hp])
      by_cases heq : oid' = oid
      · subst heq
        have h2 : alookup oid'
            (aset oid' { o with escrowId := some p.2, status := .Paid,
                                updatedAt := ctx.timestamp } cs.om.orders) = some o' := by
          rw [hcs] at ho'; exact ho'
        rw [alookup_aset_self] at h2
        obtain rfl := Option.some.inj h2
        exact absurd hDel (by simp)
      · left
        have h2 : alookup oid
            (aset oid' { o with escrowId := some p.2, status := .Paid,
                                updatedAt := ctx.timestamp } cs.om.orders) = some o' := by
          rw [hcs] at ho'; exact ho'
        rw [alookup_aset_ne _ _ heq] at h2
        exact ⟨o', h2, hDel⟩
  | updateOrderStatus ctx oid' ns notes =>
    simp only [omStep] at h
    obtain ⟨o, ho, hauth, hS, hD, hC, hcs⟩ :=
      updateOrderStatus_ok cs ctx oid' ns notes cs' h
    by_cases heq : oid' = oid
    · subst heq
      have h2 : alookup oid'
          (aset oid' { o with status := ns, updatedAt := ctx.timestamp }
            cs.om.orders) = some o' := by
        rw [hcs] at ho'; exact ho'
      rw [alookup_aset_self] at h2
      obtain rfl := Option.some.inj h2
      have hns : ns = .Delivered := hDel
      subst hns
      exact Or.inr (Or.inl ⟨ctx, notes, rfl, ⟨o, ho, hD rfl⟩, by rw [hcs]⟩)
    · left
      have h2 : alookup oid
          (aset oid' { o with status := ns, updatedAt := ctx.timestamp }
            cs.om.orders) = some o' := by
        rw [hcs] at ho'; exact ho'
      rw [alookup_aset_ne _ _ heq] at h2
      exact ⟨o', h2, hDel⟩
  | confirmDeliveryAndRelease ctx callOk oid' =>
    simp only [omStep] at h
    cases hp : confirmDeliveryAndRelease cs ctx callOk oid' with
    | error e => rw [hp] at h; exact absurd h (by simp [Except.map])
    | ok p =>
      rw [hp] at h
      simp only [Except.map] at h
      obtain rfl := Except.ok.inj h
      by_cases heq : oid' = oid
      · subst heq
        exact Or.inr (Or.inr ⟨ctx, callOk, rfl⟩)
      · obtain ⟨o, eid, vault', ho, -, -, -, -, hcs⟩ :=
          confirmDeliveryAndRelease_ok cs ctx callOk oid' p.1 p.2 (by rw [hp])
        left
        have h2 : alookup oid
            (aset oid' { o with status := .Delivered, updatedAt := ctx.timestamp }
              cs.om.orders) = some o' := by
          rw [hcs] at ho'; exact ho'
        rw [alookup_aset_ne _ _ heq] at h2
        exact ⟨o', h2, hDel⟩
  | cancelOrderAndRefund ctx callOk oid' reason =>
    simp only [omStep] at h
    cases hp : cancelOrderAndRefund cs ctx callOk oid' reason with
    | error e => rw [hp] at h; exact absurd h (by simp [Except.map])
    | ok p =>
      rw [hp] at h
      simp only [Except.map] at h
      obtain rfl := Except.ok.inj h
      obtain ⟨o, ho, hauth, hpp, hcase⟩ :=
        cancelOrderAndRefund_ok cs ctx callOk oid' reason p.1 p.2 (by rw [hp])
      rcases hcase with ⟨eid, vault', -, -, -, hcs⟩ | ⟨-, -, hcs⟩
      · by_cases heq : oid' = oid
        · subst heq
          have h2 : alookup oid'
              (aset oid' { o with status := .Refunded, updatedAt := ctx.timestamp }
                cs.om.orders) = some o' := by
            rw [hcs] at ho'; exact ho'
          rw [alookup_aset_self] at h2
          obtain rfl := Option.some.inj h2
          exact absurd hDel (by simp)
        · left
          have h2 : alookup oid
              (aset oid' { o with status := .Refunded, updatedAt := ctx.timestamp }
                cs.om.orders) = some o' := by
            rw [hcs] at ho'; exact ho'
          rw [alookup_aset_ne _ _ heq] at h2
          exact ⟨o', h2, hDel⟩
      · by_cases heq : oid' = oid
        · subst heq
          have h2 : alookup oid'
              (aset oid' { o with status := .Cancelled, updatedAt := ctx.timestamp }
                cs.om.orders) = some o' := by
            rw [hcs] at ho'; exact ho'
          rw [alookup_aset_self] at h2
          obtain rfl := Option.some.inj h2
          exact absurd hDel (by simp)
        · left
          have h2 : alookup oid
              (aset oid' { o with status := .Cancelled, updatedAt := ctx.timestamp }
                cs.om.orders) = some o' := by
            rw [hcs] at ho'; exact ho'
          rw [alookup_aset_ne _ _ heq] at h2
          exact ⟨o', h2, hDel⟩

/-- Witness for the amended C4 at a concrete input: the buyer's
`updateOrderStatus(..., Delivered, ...)` step on the shipped demo order is
classified by the amended claim (it is the `updateOrderStatus` source, with
the prior status `Shipped` and the Vault untouched). -/
theorem C4_delivered_sources_witness :
    (∃ o, alookup "ord1" c4Before.om.orders = some o ∧ o.status = .Delivered) ∨
    (∃ ctx notes,
        (OMOp.updateOrderStatus ⟨1, 0, 400⟩ "ord1" .Delivered "n2") =
          .updateOrderStatus ctx "ord1" .Delivered notes ∧
        (∃ o, alookup "ord1" c4Before.om.orders = some o ∧ o.status = .Shipped) ∧
        c4After.vault = c4Before.vault) ∨
    (∃ ctx callOk,
        (OMOp.updateOrderStatus ⟨1, 0, 400⟩ "ord1" .Delivered "n2") =
          .confirmDeliveryAndRelease ctx callOk "ord1") :=
  C4_delivered_sources (.updateOrderStatus ⟨1, 0, 400⟩ "ord1" .Delivered "n2")
    c4Before c4After (by rfl) "ord1"
    { demoOrder .Shipped (some demoEid) with status := .Delivered, updatedAt := 400 }
    (by rfl) (by rfl)

/-- **C10.** `updateOrderStatus` validates the current status only for the
targets `Shipped`, `Delivered` and `Cancelled`.  For any other target
(`Pending`, `Paid`, `Disputed`, `Refunded`) a caller who is the buyer, the
seller or the admin can move an existing order to that target from *any*
current status — including a terminal one — so order status transitions are
not monotonic. -/
theorem C10_unvalidated_status_targets
    (cs : ChainState) (ctx : CallCtx) (oid : String) (o : Order)
    (ho : alookup oid cs.om.orders = some o)
    (hauth : ctx.sender = o.buyer ∨ ctx.sender = o.seller ∨ ctx.sender = cs.om.omOwner)
    (target : OrderStatus)
    (htgt : target = .Pending ∨ target = .Paid ∨ target = .Disputed ∨ target = .Refunded)
    (notes : String) :
    updateOrderStatus cs ctx oid target notes =
      .ok { cs with om := { cs.om with
              orders := aset oid
                { o with status := target, updatedAt := ctx.timestamp }
                cs.om.orders } } ∧
    alookup oid (aset oid { o with status := target, updatedAt := ctx.timestamp }
        cs.om.orders) =
      some { o with status := target, updatedAt := ctx.timestamp } := by
  constructor
  · simp only [updateOrderStatus, ho]
    rcases htgt with rfl | rfl | rfl | rfl <;> simp [hauth]
  · exact alookup_aset_self _ _ _

/-- Witness for C10 at a concrete input: the buyer moves the *terminal*
`Delivered` demo order back to `Pending`. -/
theorem C10_unvalidated_status_targets_witness :
    updateOrderStatus c10Before ⟨1, 0, 500⟩ "ord1" .Pending "n3" =
      .ok { c10Before with om := { c10Before.om with
              orders := aset "ord1"
                { demoOrder .Delivered (some demoEid) with
                    status := .Pending, updatedAt := 500 }
                c10Before.om.orders } } ∧
    alookup "ord1" (aset "ord1"
        { demoOrder .Delivered (some demoEid) with
            status := .Pending, updatedAt := 500 } c10Before.om.orders) =
      some { demoOrder .Delivered (some demoEid) with
               status := .Pending, updatedAt := 500 } :=
  C10_unvalidated_status_targets c10Before ⟨1, 0, 500⟩ "ord1"
    (demoOrder .Delivered (some demoEid)) (by rfl) (by simp [demoOrder])
    .Pending (by simp) "n3"

/-- **C7.** For a `Pending` order called by its buyer: a `payOrder` whose
attached value differs from `totalAmount` fails with `IncorrectAmount` and —
by revert semantics — leaves the combined state (order still `Pending`, no
escrow linked) entirely unchanged; a failed nested `createEscrow` propagates
its error and likewise persists nothing; in general every `payOrder` failure
leaves the whole state unchanged. -/
theorem C7_payOrder_atomic
    (cs : ChainState) (ctx : CallCtx) (oid : String) (o : Order)
    (ho : alookup oid cs.om.orders = some o)
    (hbuy : ctx.sender = o.buyer) (hpend : o.status = .Pending) :
    (ctx.value ≠ o.totalAmount →
      payOrder cs ctx oid = .error .IncorrectAmount ∧
      omExec (.payOrder ctx oid) cs = cs) ∧
    (ctx.value = o.totalAmount →
      ∀ e, createEscrow cs.vault ⟨cs.om.omAddr, ctx.value, ctx.timestamp⟩ oid o.seller =
          .error e →
        payOrder cs ctx oid = .error (.vault e) ∧
        omExec (.payOrder ctx oid) cs = cs) ∧
    (∀ e, payOrder cs ctx oid = .error e → omExec (.payOrder ctx oid) cs = cs) := by
  refine ⟨?_, ?_, ?_⟩
  · intro hval
    have hfail : payOrder cs ctx oid = .error .IncorrectAmount := by
      simp only [payOrder, ho]
      simp [hbuy, hpend, hval]
    exact ⟨hfail, by simp [omExec, omStep, hfail, Except.map]⟩
  · intro hval e hce
    rw [hval] at hce
    have hfail : payOrder cs ctx oid = .error (.vault e) := by
      simp only [payOrder, ho]
      simp [hbuy, hpend, hval, hce]
    exact ⟨hfail, by simp [omExec, omStep, hfail, Except.map]⟩
  · intro e hfail
    simp [omExec, omStep, hfail, Except.map]

/-- Witness for C7 at a concrete input: the buyer pays 123 instead of the
order total 500 (on a chain whose Vault already holds an escrow under the
same order id, so even a correctly-valued attempt's nested `createEscrow`
would fail) — the call fails with `IncorrectAmount` and changes nothing. -/
theorem C7_payOrder_atomic_witness :
    ((123 : Nat) ≠ (demoOrder .Pending none).totalAmount →
      payOrder (demoChain (demoOrder .Pending none) demoVault) ⟨1, 123, 400⟩ "ord1" =
        .error .IncorrectAmount ∧
      omExec (.payOrder ⟨1, 123, 400⟩ "ord1")
        (demoChain (demoOrder .Pending none) demoVault) =
        demoChain (demoOrder .Pending none) demoVault) ∧
    ((123 : Nat) = (demoOrder .Pending none).totalAmount →
      ∀ e, createEscrow (demoChain (demoOrder .Pending none) demoVault).vault
            ⟨(demoChain (demoOrder .Pending none) demoVault).om.omAddr, 123, 400⟩
            "ord1" (demoOrder .Pending none).seller = .error e →
        payOrder (demoChain (demoOrder .Pending none) demoVault) ⟨1, 123, 400⟩ "ord1" =
          .error (.vault e) ∧
        omExec (.payOrder ⟨1, 123, 400⟩ "ord1")
          (demoChain (demoOrder .Pending none) demoVault) =
          demoChain (demoOrder .Pending none) demoVault) ∧
    (∀ e, payOrder (demoChain (demoOrder .Pending none) demoVault) ⟨1, 123, 400⟩ "ord1" =
        .error e →
      omExec (.payOrder ⟨1, 123, 400⟩ "ord1")
        (demoChain (demoOrder .Pending none) demoVault) =
        demoChain (demoOrder .Pending none) demoVault) :=
  C7_payOrder_atomic (demoChain (demoOrder .Pending none) demoVault) ⟨1, 123, 400⟩
    "ord1" (demoOrder .Pending none) (by rfl) (by rfl) (by rfl)

/-- A locked, undisputed escrow is released when the Vault-level caller is its
recorded buyer (payer) and the payee can receive value — regardless of the
timestamp and of who owns the Vault. -/
theorem releaseEscrow_of_buyer (st : EscrowStorage) (ctx : CallCtx)
    (callOk : Address → Bool) (id : EscrowId) (e : EscrowDetails)
    (he : alookup id st.escrows = some e)
    (hlk : e.state = .Locked) (hd : e.disputed = false)
    (hb : ctx.sender = e.buyer) (hok : callOk e.seller = true) :
    releaseEscrow st ctx callOk id =
      .ok ({ st with escrows := aset id { e with state := .Released } st.escrows },
           [.setState id .Released, .transfer id e.seller e.amount]) := by
  unfold releaseEscrow
  rw [he]
  simp [hlk, hd, hb, hok]

/-- Inversion of a successful `refundEscrow`: the escrow was `Locked`, the
authorization disjunction held for the Vault-level caller, the recorded buyer
could receive value, and the payout went to the recorded buyer. -/
theorem refundEscrow_ok (st : EscrowStorage) (ctx : CallCtx)
    (callOk : Address → Bool) (id : EscrowId) (st' : EscrowStorage)
    (tr : List EscrowAction)
    (h : refundEscrow st ctx callOk id = .ok (st', tr)) :
    ∃ e, alookup id st.escrows = some e ∧ e.state = .Locked ∧
      (ctx.sender = e.seller ∨ ctx.sender = st.vaultOwner ∨
        (e.disputed = true ∧ e.createdAt + DISPUTE_WINDOW ≤ ctx.timestamp)) ∧
      callOk e.buyer = true ∧
      tr = [.setState id .Refunded, .transfer id e.buyer e.amount] ∧
      st' = { st with escrows := aset id { e with state := .Refunded } st.escrows } := by
  unfold refundEscrow at h
  split at h
  next => exact absurd h (by simp)
  next e he =>
  split at h
  next => exact absurd h (by simp)
  next hlk =>
  split at h
  next => exact absurd h (by simp)
  next hauth =>
  split at h
  next hok =>
    have hpair := Except.ok.inj h
    obtain ⟨rfl, rfl⟩ : (_ = st') ∧ (_ = tr) :=
      ⟨congrArg Prod.fst hpair, congrArg Prod.snd hpair⟩
    exact ⟨e, he, not_not.mp (by simpa using hlk), not_not.mp hauth, hok, rfl, rfl⟩
  next => exact absurd h (by simp)

/-- Forward form of `confirmDeliveryAndRelease`: when the caller is the
order's buyer, the order is `Shipped` with a linked escrow that is `Locked`
and undisputed, the OrderManager address is the escrow's recorded buyer, and
the payee can receive value, the call succeeds, marks the order `Delivered`
and releases the escrow to the payee. -/
theorem confirmDeliveryAndRelease_of (cs : ChainState) (ctx : CallCtx)
    (callOk : Address → Bool) (oid : String) (o : Order) (eid : EscrowId)
    (e : EscrowDetails)
    (ho : alookup oid cs.om.orders = some o)
    (hb : ctx.sender = o.buyer) (hs : o.status = .Shipped)
    (hesc : o.escrowId = some eid)
    (he : alookup eid cs.vault.escrows = some e)
    (hlk : e.state = .Locked) (hd : e.disputed = false)
    (hbuyer : cs.om.omAddr = e.buyer) (hok : callOk e.seller = true) :
    confirmDeliveryAndRelease cs ctx callOk oid =
      .ok ({ cs with
              vault := { cs.vault with
                           escrows := aset eid { e with state := .Released }
                             cs.vault.escrows }
              om := { cs.om with
                        orders := aset oid
                          { o with status := .Delivered, updatedAt := ctx.timestamp }
                          cs.om.orders } },
           [.setState eid .Released, .transfer eid e.seller e.amount]) := by
  have hrel := releaseEscrow_of_buyer cs.vault ⟨cs.om.omAddr, 0, ctx.timestamp⟩
    callOk eid e he hlk hd hbuyer hok
  simp only [confirmDeliveryAndRelease, ho, hesc]
  simp [hb, hs, hrel]

/-- **C9.** Every escrow created through the Coordinator's `payOrder` records
the *immediate* Vault caller — the OrderManager contract address, not the
order's end buyer — as its buyer/payer (`createEscrow` sets
`buyer = msg.sender`).  Consequently (b) the release authorization "caller is
the payer" is satisfied by the Coordinator itself inside
`confirmDeliveryAndRelease` — the release succeeds for *every* timestamp and
Vault owner, i.e. without the deadline or owner clauses — and (c) any
successful refund of such an escrow sends the held amount to the OrderManager
contract address rather than to the end buyer. -/
theorem C9_vault_records_coordinator_as_payer
    (cs : ChainState) (ctx : CallCtx) (oid : String)
    (cs1 : ChainState) (eid : EscrowId)
    (h : payOrder cs ctx oid = .ok (cs1, eid)) :
    ∃ e, alookup eid cs1.vault.escrows = some e ∧
      e.buyer = cs.om.omAddr ∧ e.seller ≠ cs.om.omAddr ∧
      e.state = .Locked ∧ e.disputed = false ∧ e.amount = ctx.value ∧
      (∀ (notes : String) (ctx2 : CallCtx) (cs2 : ChainState),
        updateOrderStatus cs1 ctx2 oid .Shipped notes = .ok cs2 →
        ∀ (ctx3 : CallCtx) (callOk : Address → Bool),
          ctx3.sender = ctx.sender → callOk e.seller = true →
          ∃ cs3, confirmDeliveryAndRelease cs2 ctx3 callOk oid =
              .ok (cs3, [.setState eid .Released, .transfer eid e.seller e.amount]) ∧
            alookup eid cs3.vault.escrows = some { e with state := .Released }) ∧
      (∀ (ctx4 : CallCtx) (callOk4 : Address → Bool) (v' : EscrowStorage)
          (tr4 : List EscrowAction),
        refundEscrow cs1.vault ctx4 callOk4 eid = .ok (v', tr4) →
        tr4 = [.setState eid .Refunded, .transfer eid cs.om.omAddr ctx.value]) := by
  obtain ⟨o, vault', ho, hbuy, hpend, hval, hce, hcs1⟩ :=
    payOrder_ok cs ctx oid cs1 eid h
  obtain ⟨hv0, hz, hss, hfresh, heid, hv'⟩ :=
    createEscrow_ok cs.vault ⟨cs.om.omAddr, ctx.value, ctx.timestamp⟩ oid o.seller
      vault' eid hce
  subst hcs1
  subst hv'
  refine ⟨_, alookup_aset_self eid _ cs.vault.escrows, rfl, ?_, rfl, rfl, rfl, ?_, ?_⟩
  · exact fun hcontra => hss hcontra
  · -- (b): after a successful mark-shipped, the Coordinator's own address
    -- satisfies the "caller is the payer" release clause.
    intro notes ctx2 cs2 hship ctx3 callOk hs3 hok
    obtain ⟨o'', ho'', hauth'', hS'', hD'', hC'', hcs2⟩ :=
      updateOrderStatus_ok _ ctx2 oid .Shipped notes cs2 hship
    have ho1 : alookup oid (aset oid
        { o with escrowId := some eid, status := .Paid, updatedAt := ctx.timestamp }
        cs.om.orders) = some
        { o with escrowId := some eid, status := .Paid, updatedAt := ctx.timestamp } :=
      alookup_aset_self _ _ _
    have heq : o'' = { o with escrowId := some eid, status := .Paid,
                              updatedAt := ctx.timestamp } :=
      Option.some.inj (ho''.symm.trans ho1)
    subst heq
    subst hcs2
    refine ⟨_, confirmDeliveryAndRelease_of _ ctx3 callOk oid _ eid _
      (alookup_aset_self _ _ _) (by simpa using hs3.trans hbuy) rfl rfl
      (alookup_aset_self _ _ _) rfl rfl rfl hok, ?_⟩
    exact alookup_aset_self _ _ _
  · -- (c): a refund pays the OrderManager contract address.
    intro ctx4 callOk4 v' tr4 href
    obtain ⟨e', he', -, -, -, htr, -⟩ :=
      refundEscrow_ok _ ctx4 callOk4 eid v' tr4 href
    have : e' = { escrowId := eid, orderId := oid, buyer := cs.om.omAddr,
                  seller := o.seller, amount := ctx.value, state := .Locked,
                  createdAt := ctx.timestamp,
                  releaseTime := ctx.timestamp + ESCROW_PERIOD, disputed := false } :=
      Option.some.inj (he'.symm.trans (alookup_aset_self _ _ _))
    subst this
    exact htr

/-- Witness for C9 at a concrete input: paying order "ord1" on `c3Before`
mints `payEscrow`, whose recorded buyer is the OrderManager address 50 — not
the end buyer 1 — with all the stated release/refund consequences. -/
theorem C9_vault_records_coordinator_as_payer_witness :
    ∃ e, alookup payEid c3Paid.vault.escrows = some e ∧
      e.buyer = c3Before.om.omAddr ∧ e.seller ≠ c3Before.om.omAddr ∧
      e.state = .Locked ∧ e.disputed = false ∧ e.amount = 500 ∧
      (∀ (notes : String) (ctx2 : CallCtx) (cs2 : ChainState),
        updateOrderStatus c3Paid ctx2 "ord1" .Shipped notes = .ok cs2 →
        ∀ (ctx3 : CallCtx) (callOk : Address → Bool),
          ctx3.sender = 1 → callOk e.seller = true →
          ∃ cs3, confirmDeliveryAndRelease cs2 ctx3 callOk "ord1" =
              .ok (cs3, [.setState payEid .Released,
                         .transfer payEid e.seller e.amount]) ∧
            alookup payEid cs3.vault.escrows = some { e with state := .Released }) ∧
      (∀ (ctx4 : CallCtx) (callOk4 : Address → Bool) (v' : EscrowStorage)
          (tr4 : List EscrowAction),
        refundEscrow c3Paid.vault ctx4 callOk4 payEid = .ok (v', tr4) →
        tr4 = [.setState payEid .Refunded,
               .transfer payEid c3Before.om.omAddr 500]) :=
  C9_vault_records_coordinator_as_payer c3Before ⟨1, 500, 200⟩ "ord1" c3Paid
    payEid (by rfl)

/-- **C3.** The claim says `cancelOrderAndRefund` on a `Paid` order with a
linked escrow succeeds (refunding the buyer and marking the order
`Refunded`).  The code disagrees: the Vault sees the OrderManager *contract*
as the caller of `refundEscrow`, and that address is never the escrow's
seller (`createEscrow` rejected `seller == msg.sender`); so unless the
OrderManager happens to own the Vault the refund reverts `Unauthorized`, and
even then the refund would pay the escrow's recorded buyer — the OrderManager
itself, which cannot receive plain value — so the transfer fails.  Under the
deployed configuration (Vault owner = deployer ≠ OrderManager, OrderManager
without a receive function) no `cancelOrderAndRefund` call on a paid order
can ever succeed, for any caller: the escrowed funds are stuck. -/
theorem C3_cancel_paid_reverts
    (cs : ChainState) (ctx : CallCtx) (oid : String)
    (cs1 : ChainState) (eid : EscrowId)
    (hpay : payOrder cs ctx oid = .ok (cs1, eid))
    (ctx2 : CallCtx) (callOk : Address → Bool) (reason : String)
    (hdeploy : cs.om.omAddr ≠ cs.vault.vaultOwner ∨ callOk cs.om.omAddr = false) :
    ∀ (cs2 : ChainState) (tr : List EscrowAction),
      cancelOrderAndRefund cs1 ctx2 callOk oid reason ≠ .ok (cs2, tr) := by
  intro cs2 tr hok
  obtain ⟨o, vault', ho, hbuy, hpend, hval, hce, hcs1⟩ :=
    payOrder_ok cs ctx oid cs1 eid hpay
  obtain ⟨hv0, hz, hss, hfresh, heid, hv'⟩ := createEscrow_ok _ _ _ _ _ _ hce
  subst hcs1
  subst hv'
  obtain ⟨o'', ho'', hauth, hpp, hcase⟩ :=
    cancelOrderAndRefund_ok _ ctx2 callOk oid reason cs2 tr hok
  have heq : o'' = { o with escrowId := some eid, status := .Paid,
                            updatedAt := ctx.timestamp } :=
    Option.some.inj (ho''.symm.trans (alookup_aset_self _ _ _))
  subst heq
  rcases hcase with ⟨eid', vault'', -, hesc, href, -⟩ | ⟨hbad, -, -⟩
  · obtain rfl : eid = eid' := Option.some.inj hesc
    obtain ⟨e', he', hlk', hauth', hok', -, -⟩ := refundEscrow_ok _ _ _ _ _ _ href
    have he'eq : e' = { escrowId := eid, orderId := oid, buyer := cs.om.omAddr,
                        seller := o.seller, amount := ctx.value, state := .Locked,
                        createdAt := ctx.timestamp,
                        releaseTime := ctx.timestamp + ESCROW_PERIOD,
                        disputed := false } :=
      Option.some.inj (he'.symm.trans (alookup_aset_self _ _ _))
    subst he'eq
    rcases hauth' with hs | hvo | hdw
    · exact hss hs.symm
    · rcases hdeploy with hno | hcallno
      · exact hno hvo
      · have htrue : callOk cs.om.omAddr = true := hok'
        rw [htrue] at hcallno
        exact absurd hcallno (by simp)
    · exact absurd hdw.1 (by simp)
  · rcases hbad with hnp | hnone
    · exact hnp rfl
    · exact absurd hnone (by simp)

/-- Witness for C3 at a concrete input: on the deployed configuration
(OrderManager at 50, Vault owned by deployer 7), after the buyer pays order
"ord1", the buyer's own cancel-and-refund call — with every external transfer
succeeding — reverts with the Vault's `Unauthorized` instead of returning
successfully. -/
theorem C3_cancel_paid_reverts_witness :
    cancelOrderAndRefund c3Paid ⟨1, 0, 300⟩ (fun _ => true) "ord1" "changed my mind" =
      .error (.vault .Unauthorized) ∧
    cancelOrderAndRefund c3Paid ⟨1, 0, 300⟩ (fun _ => true) "ord1" "changed my mind" ≠
      .ok (c3Paid, []) :=
  ⟨by rfl,
   C3_cancel_paid_reverts c3Before ⟨1, 500, 200⟩ "ord1" c3Paid payEid (by rfl)
     ⟨1, 0, 300⟩ (fun _ => true) "changed my mind" (Or.inl (by decide)) c3Paid []⟩

/-- Inversion of a successful `decrementStock`: the listing existed, was
active, had enough stock, and only its stock changed (decreased by the
quantity). -/
theorem decrementStock_ok (st : RegistryState) (ctx : CallCtx) (lid : String)
    (q : Nat) (st' : RegistryState) (ns : Nat)
    (h : decrementStock st ctx lid q = .ok (st', ns)) :
    ∃ l, alookup lid st.listings = some l ∧ l.active = true ∧ q ≤ l.stock ∧
      ns = l.stock - q ∧
      st' = { st with listings := aset lid { l with stock := l.stock - q } st.listings } := by
  unfold decrementStock at h
  split at h
  next => exact absurd h (by simp)
  next l hl =>
  split at h
  next => exact absurd h (by simp)
  next ha =>
  split at h
  next => exact absurd h (by simp)
  next hq =>
  have hpair := Except.ok.inj h
  obtain ⟨rfl, rfl⟩ : (_ = st') ∧ (_ = ns) :=
    ⟨congrArg Prod.fst hpair, congrArg Prod.snd hpair⟩
  exact ⟨l, hl, by simpa using ha, by omega, rfl, rfl⟩

/-- `decrementStock` with a quantity exceeding the remaining stock of an
existing active listing fails with `InsufficientStock`. -/
theorem decrementStock_insufficient (st : RegistryState) (ctx : CallCtx)
    (lid : String) (q : Nat) (l : Listing)
    (hl : alookup lid st.listings = some l) (ha : l.active = true)
    (hq : l.stock < q) :
    decrementStock st ctx lid q = .error .InsufficientStock := by
  unfold decrementStock
  rw [hl]
  simp [ha, hq]

/-- A successful `createListing` never disturbs an existing listing (the new
id must have been free). -/
theorem createListing_preserves (st : RegistryState) (ctx : CallCtx)
    (lid' nm : String) (p : Nat) (cur : String) (s : Nat) (cid : String)
    (st' : RegistryState) (h : createListing st ctx lid' nm p cur s cid = .ok st')
    (lid : String) (hsome : alookup lid st.listings ≠ none) :
    alookup lid st'.listings = alookup lid st.listings := by
  unfold createListing at h
  split at h
  next => exact absurd h (by simp)
  next =>
  split at h
  next => exact absurd h (by simp)
  next hfree =>
  split at h
  next => exact absurd h (by simp)
  next =>
  split at h
  next => exact absurd h (by simp)
  next =>
  obtain rfl := Except.ok.inj h
  have hne : lid' ≠ lid := by
    intro hcontra
    subst hcontra
    exact hsome (Option.not_isSome_iff_eq_none.mp (by simpa using hfree))
  exact alookup_aset_ne _ _ hne

/-- Conservation invariant along any run of `createListing`/`decrementStock`
calls: a listing present at the start is still present at the end, with its
stock decreased by exactly the sum of the successful decrements addressed to
it, and that sum never exceeds the stock (so the stock never goes negative).
All other fields are untouched. -/
theorem stockRun_conservation (ops : List StockOp) :
    ∀ (st : RegistryState) (lid : String) (l : Listing),
      alookup lid st.listings = some l →
      decSum lid st ops ≤ l.stock ∧
      alookup lid (stockRun st ops).listings =
        some { l with stock := l.stock - decSum lid st ops } := by
  induction ops with
  | nil =>
    intro st lid l hl
    simpa [decSum, stockRun] using hl
  | cons op rest ih =>
    intro st lid l hl
    cases op with
    | create ctx lid' nm p cur s cid =>
      have hhead : decSum lid st (.create ctx lid' nm p cur s cid :: rest) =
          decSum lid (stockExec (.create ctx lid' nm p cur s cid) st).1 rest := by
        simp [decSum]
      have hrun : stockRun st (.create ctx lid' nm p cur s cid :: rest) =
          stockRun (stockExec (.create ctx lid' nm p cur s cid) st).1 rest := rfl
      rw [hhead, hrun]
      cases hc : createListing st ctx lid' nm p cur s cid with
      | error e =>
        have hst : (stockExec (.create ctx lid' nm p cur s cid) st).1 = st := by
          simp [stockExec, hc]
        rw [hst]
        exact ih st lid l hl
      | ok st1 =>
        have hst : (stockExec (.create ctx lid' nm p cur s cid) st).1 = st1 := by
          simp [stockExec, hc]
        rw [hst]
        have hl1 : alookup lid st1.listings = some l := by
          rw [createListing_preserves st ctx lid' nm p cur s cid st1 hc lid
            (by rw [hl]; simp)]
          exact hl
        exact ih st1 lid l hl1
    | dec ctx lid' q =>
      have hrun : stockRun st (.dec ctx lid' q :: rest) =
          stockRun (stockExec (.dec ctx lid' q) st).1 rest := rfl
      by_cases heq : lid' = lid
      · subst heq
        cases hd : decrementStock st ctx lid' q with
        | error e =>
          have hhead : decSum lid' st (.dec ctx lid' q :: rest) =
              decSum lid' (stockExec (.dec ctx lid' q) st).1 rest := by
            simp [decSum, hd, Except.isOk, Except.toBool]
          have hst : (stockExec (.dec ctx lid' q) st).1 = st := by
            simp [stockExec, hd]
          rw [hhead, hrun, hst]
          exact ih st lid' l hl
        | ok p1 =>
          obtain ⟨l0, hl0, ha0, hq0, -, hst1⟩ :=
            decrementStock_ok st ctx lid' q p1.1 p1.2 (by rw [hd])
          have hll : l = l0 := Option.some.inj (hl.symm.trans hl0)
          subst hll
          have hhead : decSum lid' st (.dec ctx lid' q :: rest) =
              q + decSum lid' (stockExec (.dec ctx lid' q) st).1 rest := by
            simp [decSum, hd, Except.isOk, Except.toBool]
          have hst : (stockExec (.dec ctx lid' q) st).1 = p1.1 := by
            simp [stockExec, hd]
          rw [hhead, hrun, hst]
          have hl1 : alookup lid' p1.1.listings = some { l with stock := l.stock - q } := by
            rw [hst1]
            exact alookup_aset_self _ _ _
          obtain ⟨ihle, ihlook⟩ := ih p1.1 lid' { l with stock := l.stock - q } hl1
          constructor
          · simp only at ihle
            omega
          · rw [ihlook]
            have harith : l.stock - q - decSum lid' p1.1 rest =
                l.stock - (q + decSum lid' p1.1 rest) := by omega
            simp only [harith]
      · have hhead : decSum lid st (.dec ctx lid' q :: rest) =
            decSum lid (stockExec (.dec ctx lid' q) st).1 rest := by
          simp [decSum, heq]
        rw [hhead, hrun]
        cases hd : decrementStock st ctx lid' q with
        | error e =>
          have hst : (stockExec (.dec ctx lid' q) st).1 = st := by
            simp [stockExec, hd]
          rw [hst]
          exact ih st lid l hl
        | ok p1 =>
          obtain ⟨l0, hl0, -, -, -, hst1⟩ :=
            decrementStock_ok st ctx lid' q p1.1 p1.2 (by rw [hd])
          have hst : (stockExec (.dec ctx lid' q) st).1 = p1.1 := by
            simp [stockExec, hd]
          rw [hst]
          have hl1 : alookup lid p1.1.listings = some l := by
            rw [hst1]
            rw [alookup_aset_ne _ _ heq]
            exact hl
          exact ih p1.1 lid l hl1

/-- **C5.** For every sequence of `createListing`/`decrementStock` calls, a
listing's remaining stock never goes negative and after the sequence equals
the initial stock minus the sum of the quantities of the successful
`decrementStock` calls addressed to it (the sum never exceeding the initial
stock); and a single `decrementStock` whose quantity exceeds the remaining
stock of an existing active listing fails with `InsufficientStock`, leaving
the stock unchanged (failure is a revert, so `stockExec` keeps the state). -/
theorem C5_stock_conservation
    (st : RegistryState) (lid : String) (l : Listing)
    (hl : alookup lid st.listings = some l) :
    (∀ ops : List StockOp,
      decSum lid st ops ≤ l.stock ∧
      alookup lid (stockRun st ops).listings =
        some { l with stock := l.stock - decSum lid st ops }) ∧
    (∀ (ctx : CallCtx) (q : Nat), l.active = true → l.stock < q →
      decrementStock st ctx lid q = .error .InsufficientStock ∧
      stockExec (.dec ctx lid q) st = (st, false)) := by
  constructor
  · intro ops
    exact stockRun_conservation ops st lid l hl
  · intro ctx q ha hq
    have hfail := decrementStock_insufficient st ctx lid q l hl ha hq
    exact ⟨hfail, by simp [stockExec, hfail]⟩

/-- Witness for C5 at a concrete input: the demo Stock Ledger (listing
"lst1" with stock 10), with the conservation statement instantiated, and an
oversized decrement (quantity 11) rejected with `InsufficientStock`. -/
theorem C5_stock_conservation_witness :
    ((∀ ops : List StockOp,
      decSum "lst1" demoReg ops ≤ demoListing.stock ∧
      alookup "lst1" (stockRun demoReg ops).listings =
        some { demoListing with stock := demoListing.stock - decSum "lst1" demoReg ops }) ∧
    (∀ (ctx : CallCtx) (q : Nat), demoListing.active = true → demoListing.stock < q →
      decrementStock demoReg ctx "lst1" q = .error .InsufficientStock ∧
      stockExec (.dec ctx "lst1" q) demoReg = (demoReg, false))) ∧
    decSum "lst1" demoReg
        [.dec ⟨1, 0, 60⟩ "lst1" 3, .dec ⟨4, 0, 61⟩ "lst1" 11, .dec ⟨5, 0, 62⟩ "lst1" 7] = 10 ∧
    alookup "lst1" (stockRun demoReg
        [.dec ⟨1, 0, 60⟩ "lst1" 3, .dec ⟨4, 0, 61⟩ "lst1" 11, .dec ⟨5, 0, 62⟩ "lst1" 7]).listings =
      some { demoListing with stock := 0 } :=
  ⟨C5_stock_conservation demoReg "lst1" demoListing (by rfl), by rfl, by rfl⟩

/-- Inversion of a successful `releaseEscrow` (mirror of `refundEscrow_ok`):
the escrow was `Locked` and undisputed, the caller was authorized, the payee
could receive value, and the payout went to the recorded seller. -/
theorem releaseEscrow_ok (st : EscrowStorage) (ctx : CallCtx)
    (callOk : Address → Bool) (id : EscrowId) (st' : EscrowStorage)
    (tr : List EscrowAction)
    (h : releaseEscrow st ctx callOk id = .ok (st', tr)) :
    ∃ e, alookup id st.escrows = some e ∧ e.state = .Locked ∧
      e.disputed = false ∧
      (ctx.sender = e.buyer ∨ ctx.sender = st.vaultOwner ∨
        e.releaseTime ≤ ctx.timestamp) ∧
      callOk e.seller = true ∧
      tr = [.setState id .Released, .transfer id e.seller e.amount] ∧
      st' = { st with escrows := aset id { e with state := .Released } st.escrows } := by
  unfold releaseEscrow at h
  split at h
  next => exact absurd h (by simp)
  next e he =>
  split at h
  next => exact absurd h (by simp)
  next hlk =>
  split at h
  next => exact absurd h (by simp)
  next hd =>
  split at h
  next => exact absurd h (by simp)
  next hauth =>
  split at h
  next hok =>
    have hpair := Except.ok.inj h
    obtain ⟨rfl, rfl⟩ : (_ = st') ∧ (_ = tr) :=
      ⟨congrArg Prod.fst hpair, congrArg Prod.snd hpair⟩
    exact ⟨e, he, not_not.mp (by simpa using hlk), by simpa using hd,
      not_not.mp hauth, hok, rfl, rfl⟩
  next => exact absurd h (by simp)

/-- Full shape of a successful `initiateDispute`: the whole new storage (the
escrow rewritten in place, everything else untouched). -/
theorem initiateDispute_shape (st : EscrowStorage) (ctx : CallCtx)
    (id : EscrowId) (st' : EscrowStorage) (h : initiateDispute st ctx id = .ok st') :
    ∃ e, alookup id st.escrows = some e ∧
      st' = { st with
        escrows := aset id { e with disputed := true, state := .Disputed } st.escrows } := by
  unfold initiateDispute at h
  split at h
  next => exact absurd h (by simp)
  next e he =>
  split at h
  next => exact absurd h (by simp)
  next =>
  split at h
  next => exact absurd h (by simp)
  next =>
  split at h
  next => exact absurd h (by simp)
  next =>
  obtain rfl := Except.ok.inj h
  exact ⟨e, he, rfl⟩

/-- One Vault call (with revert semantics) preserves the storage invariant,
never removes or changes an `orderToEscrow` binding, and never changes the
held amount of any stored escrow. -/
theorem vaultExec_invariants (op : VaultOp) (st : EscrowStorage)
    (hinv : VaultInv st) :
    VaultInv (vaultExec op st) ∧
    (∀ (oid : String) (x : EscrowId), alookup oid st.orderToEscrow = some x →
      alookup oid (vaultExec op st).orderToEscrow = some x) ∧
    (∀ (id : EscrowId) (e : EscrowDetails), alookup id st.escrows = some e →
      ∃ e', alookup id (vaultExec op st).escrows = some e' ∧ e'.amount = e.amount) := by
  cases op with
  | create ctx oid seller =>
    cases hc : createEscrow st ctx oid seller with
    | error err =>
      have hexec : vaultExec (.create ctx oid seller) st = st := by
        simp [vaultExec, hc]
      rw [hexec]
      exact ⟨hinv, fun _ _ hx => hx, fun _ e he => ⟨e, he, rfl⟩⟩
    | ok p =>
      obtain ⟨st1, eid⟩ := p
      obtain ⟨hv0, hz, hss, hfresh, heid, hshape⟩ :=
        createEscrow_ok st ctx oid seller st1 eid hc
      subst heid
      subst hshape
      simp only [vaultExec, hc]
      refine ⟨?_, ?_, ?_⟩
      · intro id hid
        by_cases hide : id = ⟨oid, ctx.sender, ctx.timestamp⟩
        · subst hide
          exact alookup_aset_self _ _ _
        · rw [alookup_aset_ne _ _ (Ne.symm hide)] at hid
          have hold := hinv id hid
          by_cases hoid : id.orderId = oid
          · exfalso
            rw [hoid] at hold
            exact absurd (hold.symm.trans hfresh) (by simp)
          · rw [alookup_aset_ne _ _ (Ne.symm hoid)]
            exact hold
      · intro oid0 x hx
        by_cases h0 : oid0 = oid
        · subst h0
          exact absurd (hx.symm.trans hfresh) (by simp)
        · rw [alookup_aset_ne _ _ (Ne.symm h0)]
          exact hx
      · intro id0 e0 he0
        by_cases hide : id0 = ⟨oid, ctx.sender, ctx.timestamp⟩
        · exfalso
          subst hide
          have hsome : alookup oid st.orderToEscrow = some ⟨oid, ctx.sender, ctx.timestamp⟩ :=
            hinv ⟨oid, ctx.sender, ctx.timestamp⟩ (by rw [he0]; simp)
          exact absurd (hsome.symm.trans hfresh) (by simp)
        · refine ⟨e0, ?_, rfl⟩
          rw [alookup_aset_ne _ _ (Ne.symm hide)]
          exact he0
  | release ctx callOk id =>
    cases hc : releaseEscrow st ctx callOk id with
    | error err =>
      have hexec : vaultExec (.release ctx callOk id) st = st := by
        simp [vaultExec, hc]
      rw [hexec]
      exact ⟨hinv, fun _ _ hx => hx, fun _ e he => ⟨e, he, rfl⟩⟩
    | ok p =>
      obtain ⟨st1, tr⟩ := p
      obtain ⟨e0, he0, -, -, -, -, -, hshape⟩ := releaseEscrow_ok st ctx callOk id st1 tr hc
      subst hshape
      simp only [vaultExec, hc]
      refine ⟨?_, fun _ _ hx => hx, ?_⟩
      · intro id0 hid0
        by_cases hide : id0 = id
        · subst hide
          exact hinv id0 (by rw [he0]; simp)
        · rw [alookup_aset_ne _ _ (Ne.symm hide)] at hid0
          exact hinv id0 hid0
      · intro id0 e1 he1
        by_cases hide : id0 = id
        · subst hide
          have hee : e1 = e0 := Option.some.inj (he1.symm.trans he0)
          subst hee
          exact ⟨_, alookup_aset_self _ _ _, rfl⟩
        · refine ⟨e1, ?_, rfl⟩
          rw [alookup_aset_ne _ _ (Ne.symm hide)]
          exact he1
  | refund ctx callOk id =>
    cases hc : refundEscrow st ctx callOk id with
    | error err =>
      have hexec : vaultExec (.refund ctx callOk id) st = st := by
        simp [vaultExec, hc]
      rw [hexec]
      exact ⟨hinv, fun _ _ hx => hx, fun _ e he => ⟨e, he, rfl⟩⟩
    | ok p =>
      obtain ⟨st1, tr⟩ := p
      obtain ⟨e0, he0, -, -, -, -, hshape⟩ := refundEscrow_ok st ctx callOk id st1 tr hc
      subst hshape
      simp only [vaultExec, hc]
      refine ⟨?_, fun _ _ hx => hx, ?_⟩
      · intro id0 hid0
        by_cases hide : id0 = id
        · subst hide
          exact hinv id0 (by rw [he0]; simp)
        · rw [alookup_aset_ne _ _ (Ne.symm hide)] at hid0
          exact hinv id0 hid0
      · intro id0 e1 he1
        by_cases hide : id0 = id
        · subst hide
          have hee : e1 = e0 := Option.some.inj (he1.symm.trans he0)
          subst hee
          exact ⟨_, alookup_aset_self _ _ _, rfl⟩
        · refine ⟨e1, ?_, rfl⟩
          rw [alookup_aset_ne _ _ (Ne.symm hide)]
          exact he1
  | dispute ctx id =>
    cases hc : initiateDispute st ctx id with
    | error err =>
      have hexec : vaultExec (.dispute ctx id) st = st := by
        simp [vaultExec, hc]
      rw [hexec]
      exact ⟨hinv, fun _ _ hx => hx, fun _ e he => ⟨e, he, rfl⟩⟩
    | ok st1 =>
      obtain ⟨e0, he0, hshape⟩ := initiateDispute_shape st ctx id st1 hc
      subst hshape
      simp only [vaultExec, hc]
      refine ⟨?_, fun _ _ hx => hx, ?_⟩
      · intro id0 hid0
        by_cases hide : id0 = id
        · subst hide
          exact hinv id0 (by rw [he0]; simp)
        · rw [alookup_aset_ne _ _ (Ne.symm hide)] at hid0
          exact hinv id0 hid0
      · intro id0 e1 he1
        by_cases hide : id0 = id
        · subst hide
          have hee : e1 = e0 := Option.some.inj (he1.symm.trans he0)
          subst hee
          exact ⟨_, alookup_aset_self _ _ _, rfl⟩
        · refine ⟨e1, ?_, rfl⟩
          rw [alookup_aset_ne _ _ (Ne.symm hide)]
          exact he1

/-- `vaultExec_invariants` lifted to whole runs. -/
theorem vaultRun_invariants (ops : List VaultOp) :
    ∀ st : EscrowStorage, VaultInv st →
      VaultInv (vaultRun st ops) ∧
      (∀ (oid : String) (x : EscrowId), alookup oid st.orderToEscrow = some x →
        alookup oid (vaultRun st ops).orderToEscrow = some x) ∧
      (∀ (id : EscrowId) (e : EscrowDetails), alookup id st.escrows = some e →
        ∃ e', alookup id (vaultRun st ops).escrows = some e' ∧ e'.amount = e.amount) := by
  induction ops with
  | nil =>
    intro st hinv
    exact ⟨hinv, fun _ _ hx => hx, fun _ e he => ⟨e, he, rfl⟩⟩
  | cons op rest ih =>
    intro st hinv
    obtain ⟨hinv1, hmono1, hamt1⟩ := vaultExec_invariants op st hinv
    obtain ⟨hinv2, hmono2, hamt2⟩ := ih (vaultExec op st) hinv1
    refine ⟨hinv2, ?_, ?_⟩
    · intro oid x hx
      exact hmono2 oid x (hmono1 oid x hx)
    · intro id e he
      obtain ⟨e1, he1, ha1⟩ := hamt1 id e he
      obtain ⟨e2, he2, ha2⟩ := hamt2 id e1 he1
      exact ⟨e2, he2, ha2.trans ha1⟩

/-- When an order id is already bound in `orderToEscrow`, `createEscrow`
never succeeds for it; it reports `AlreadyExists` whenever the call survives
the input-validation guards (nonzero value, nonzero seller distinct from the
caller, which precede the duplicate check in the source). -/
theorem createEscrow_duplicate_rejected (st : EscrowStorage) (ctx : CallCtx)
    (oid : String) (seller : Address) (x : EscrowId)
    (hx : alookup oid st.orderToEscrow = some x) :
    (∀ r : EscrowStorage × EscrowId, createEscrow st ctx oid seller ≠ .ok r) ∧
    (ctx.value ≠ 0 → seller ≠ 0 → seller ≠ ctx.sender →
      createEscrow st ctx oid seller = .error .AlreadyExists) := by
  constructor
  · intro r hr
    unfold createEscrow at hr
    split at hr
    next => exact absurd hr (by simp)
    next =>
    split at hr
    next => exact absurd hr (by simp)
    next =>
    split at hr
    next => exact absurd hr (by simp)
    next =>
    split at hr
    next y hy => exact absurd hr (by simp)
    next hnone => exact absurd (hx.symm.trans hnone) (by simp)
  · intro hv hz hs
    unfold createEscrow
    simp [hv, hz, hs, hx]

/-- **C6.** After a successful `createEscrow` for an order id (from any
well-formed Vault storage), every later `createEscrow` for the same order id
— after any interleaving of further Vault operations — never succeeds,
reports `AlreadyExists` whenever it survives the input-validation guards,
and (by revert semantics) changes no state; and the escrow's held amount,
fixed at `msg.value` on creation, is never changed by any later Vault
operation. -/
theorem C6_escrow_uniqueness
    (st : EscrowStorage) (ctx : CallCtx) (oid : String) (seller : Address)
    (st1 : EscrowStorage) (eid : EscrowId)
    (hinv : VaultInv st)
    (h : createEscrow st ctx oid seller = .ok (st1, eid)) :
    (∀ (ops : List VaultOp) (ctx2 : CallCtx) (s2 : Address),
      (∀ r : EscrowStorage × EscrowId,
        createEscrow (vaultRun st1 ops) ctx2 oid s2 ≠ .ok r) ∧
      (ctx2.value ≠ 0 → s2 ≠ 0 → s2 ≠ ctx2.sender →
        createEscrow (vaultRun st1 ops) ctx2 oid s2 = .error .AlreadyExists) ∧
      vaultExec (.create ctx2 oid s2) (vaultRun st1 ops) = vaultRun st1 ops) ∧
    (∀ ops : List VaultOp, ∃ e,
      alookup eid (vaultRun st1 ops).escrows = some e ∧ e.amount = ctx.value) := by
  obtain ⟨hv0, hz, hss, hfresh, heid, hshape⟩ :=
    createEscrow_ok st ctx oid seller st1 eid h
  have hinv1 : VaultInv st1 := by
    have hpre := (vaultExec_invariants (.create ctx oid seller) st hinv).1
    rw [show vaultExec (.create ctx oid seller) st = st1 by simp [vaultExec, h]] at hpre
    exact hpre
  have hx1 : alookup oid st1.orderToEscrow = some eid := by
    rw [hshape]
    exact alookup_aset_self _ _ _
  have he1 : alookup eid st1.escrows = some
      { escrowId := eid, orderId := oid, buyer := ctx.sender, seller := seller,
        amount := ctx.value, state := .Locked, createdAt := ctx.timestamp,
        releaseTime := ctx.timestamp + ESCROW_PERIOD, disputed := false } := by
    rw [hshape]
    exact alookup_aset_self _ _ _
  constructor
  · intro ops ctx2 s2
    have hx := (vaultRun_invariants ops st1 hinv1).2.1 oid eid hx1
    obtain ⟨hnever, halready⟩ :=
      createEscrow_duplicate_rejected (vaultRun st1 ops) ctx2 oid s2 eid hx
    refine ⟨hnever, halready, ?_⟩
    cases hcr : createEscrow (vaultRun st1 ops) ctx2 oid s2 with
    | error err => simp [vaultExec, hcr]
    | ok r => exact absurd hcr (hnever r)
  · intro ops
    obtain ⟨e', he', hamt⟩ := (vaultRun_invariants ops st1 hinv1).2.2 eid _ he1
    exact ⟨e', he', hamt⟩

/-- Witness for C6 at a concrete input: the demo escrow is created from the
empty Vault (minting exactly `demoVault`), after which any second
`createEscrow` for "ord1" is rejected and the amount 500 persists. -/
theorem C6_escrow_uniqueness_witness :
    (∀ (ops : List VaultOp) (ctx2 : CallCtx) (s2 : Address),
      (∀ r : EscrowStorage × EscrowId,
        createEscrow (vaultRun demoVault ops) ctx2 "ord1" s2 ≠ .ok r) ∧
      (ctx2.value ≠ 0 → s2 ≠ 0 → s2 ≠ ctx2.sender →
        createEscrow (vaultRun demoVault ops) ctx2 "ord1" s2 = .error .AlreadyExists) ∧
      vaultExec (.create ctx2 "ord1" s2) (vaultRun demoVault ops) = vaultRun demoVault ops) ∧
    (∀ ops : List VaultOp, ∃ e,
      alookup demoEid (vaultRun demoVault ops).escrows = some e ∧ e.amount = 500) :=
  C6_escrow_uniqueness demoVault0 ⟨1, 500, 100⟩ "ord1" 2 demoVault demoEid
    (by intro id hid; simp [demoVault0, alookup] at hid) (by rfl)

/-- **C8, counterexample.**  The claim says no caller other than the seller
or the Coordinator can change a listing's price, stock or active flag.  But
`decrementStock` has no caller check at all: address 99 — neither the
listing's seller (2) nor the OrderManager contract (50) — successfully
decrements the demo listing's stock from 10 to 8 by calling the Stock Ledger
directly. -/
theorem C8_counterexample :
    (99 : Address) ≠ demoListing.seller ∧
    (99 : Address) ≠ (demoChain (demoOrder .Pending none) demoVault0).om.omAddr ∧
    decrementStock (demoChain (demoOrder .Pending none) demoVault0).reg
        ⟨99, 0, 70⟩ "lst1" 2 =
      .ok ({ demoReg with
               listings := aset "lst1" { demoListing with stock := 8 } demoReg.listings },
           8) :=
  ⟨by decide, by decide, by rfl⟩

/-- Inversion of a successful `updateListing`: the caller was the recorded
seller and the listing was rewritten with the new price/stock/active. -/
theorem updateListing_ok (st : RegistryState) (ctx : CallCtx) (lid : String)
    (p s : Nat) (a : Bool) (st' : RegistryState)
    (h : updateListing st ctx lid p s a = .ok st') :
    ∃ l, alookup lid st.listings = some l ∧ ctx.sender = l.seller ∧
      st' = { st with
        listings := aset lid { l with price := p, stock := s, active := a } st.listings } := by
  unfold updateListing at h
  split at h
  next => exact absurd h (by simp)
  next l hl =>
  split at h
  next => exact absurd h (by simp)
  next hs =>
  obtain rfl := Except.ok.inj h
  exact ⟨l, hl, (not_not.mp (by simpa [eq_comm] using hs)), rfl⟩

/-- Forward form of `decrementStock`: on an existing active listing with
sufficient stock it succeeds for *any* caller, changing only the stock. -/
theorem decrementStock_of (st : RegistryState) (ctx : CallCtx) (lid : String)
    (q : Nat) (l : Listing) (hl : alookup lid st.listings = some l)
    (ha : l.active = true) (hq : q ≤ l.stock) :
    decrementStock st ctx lid q =
      .ok ({ st with listings := aset lid { l with stock := l.stock - q } st.listings },
           l.stock - q) := by
  unfold decrementStock
  rw [hl]
  simp [ha, Nat.not_lt.mpr hq]

/-- **C8, amended.**  `updateListing` is restricted to the recorded seller
(any other caller fails `Unauthorized`, changing nothing) and is the only
Stock Ledger operation that can change a listing's price or active flag; but
`decrementStock` carries no caller restriction: *any* address — not only the
Coordinator — can decrement the stock of an existing active listing with
sufficient stock, changing only the stock field. -/
theorem C8_listing_mutation_authority
    (st : RegistryState) (lid : String) (l : Listing)
    (hl : alookup lid st.listings = some l) :
    (∀ (ctx : CallCtx) (p s : Nat) (a : Bool), ctx.sender ≠ l.seller →
      updateListing st ctx lid p s a = .error .Unauthorized ∧
      regExec (.update ctx lid p s a) st = st) ∧
    (∀ (op : RegOp) (l' : Listing),
      alookup lid (regExec op st).listings = some l' →
      l'.price ≠ l.price ∨ l'.active ≠ l.active →
      ∃ (ctx : CallCtx) (p s : Nat) (a : Bool),
        op = .update ctx lid p s a ∧ ctx.sender = l.seller) ∧
    (∀ (ctx : CallCtx) (q : Nat), l.active = true → q ≤ l.stock →
      decrementStock st ctx lid q =
        .ok ({ st with listings := aset lid { l with stock := l.stock - q } st.listings },
             l.stock - q)) := by
  refine ⟨?_, ?_, ?_⟩
  · intro ctx p s a hsender
    have hfail : updateListing st ctx lid p s a = .error .Unauthorized := by
      unfold updateListing
      rw [hl]
      simp [Ne.symm hsender]
    exact ⟨hfail, by simp [regExec, hfail]⟩
  · intro op l' hl' hne
    cases op with
    | create ctx2 lid2 nm p2 cur s2 cid =>
      cases hc : createListing st ctx2 lid2 nm p2 cur s2 cid with
      | error err =>
        rw [show regExec (.create ctx2 lid2 nm p2 cur s2 cid) st = st by
          simp [regExec, hc]] at hl'
        obtain rfl : l' = l := Option.some.inj (hl'.symm.trans hl)
        rcases hne with hx | hx <;> exact absurd rfl hx
      | ok st1 =>
        rw [show regExec (.create ctx2 lid2 nm p2 cur s2 cid) st = st1 by
          simp [regExec, hc]] at hl'
        rw [createListing_preserves st ctx2 lid2 nm p2 cur s2 cid st1 hc lid
          (by rw [hl]; simp)] at hl'
        obtain rfl : l' = l := Option.some.inj (hl'.symm.trans hl)
        rcases hne with hx | hx <;> exact absurd rfl hx
    | update ctx2 lid2 p2 s2 a2 =>
      cases hc : updateListing st ctx2 lid2 p2 s2 a2 with
      | error err =>
        rw [show regExec (.update ctx2 lid2 p2 s2 a2) st = st by
          simp [regExec, hc]] at hl'
        obtain rfl : l' = l := Option.some.inj (hl'.symm.trans hl)
        rcases hne with hx | hx <;> exact absurd rfl hx
      | ok st1 =>
        obtain ⟨l0, hl0, hsend, hshape⟩ := updateListing_ok st ctx2 lid2 p2 s2 a2 st1 hc
        rw [show regExec (.update ctx2 lid2 p2 s2 a2) st = st1 by
          simp [regExec, hc]] at hl'
        by_cases heq : lid2 = lid
        · subst heq
          have hll : l = l0 := Option.some.inj (hl.symm.trans hl0)
          subst hll
          exact ⟨ctx2, p2, s2, a2, rfl, hsend⟩
        · rw [hshape, alookup_aset_ne _ _ heq] at hl'
          obtain rfl : l' = l := Option.some.inj (hl'.symm.trans hl)
          rcases hne with hx | hx <;> exact absurd rfl hx
    | dec ctx2 lid2 q2 =>
      cases hc : decrementStock st ctx2 lid2 q2 with
      | error err =>
        rw [show regExec (.dec ctx2 lid2 q2) st = st by simp [regExec, hc]] at hl'
        obtain rfl : l' = l := Option.some.inj (hl'.symm.trans hl)
        rcases hne with hx | hx <;> exact absurd rfl hx
      | ok p =>
        obtain ⟨l0, hl0, -, -, -, hshape⟩ :=
          decrementStock_ok st ctx2 lid2 q2 p.1 p.2 (by rw [hc])
        rw [show regExec (.dec ctx2 lid2 q2) st = p.1 by simp [regExec, hc]] at hl'
        by_cases heq : lid2 = lid
        · subst heq
          have hll : l = l0 := Option.some.inj (hl.symm.trans hl0)
          subst hll
          rw [hshape, alookup_aset_self] at hl'
          obtain rfl : l' = { l with stock := l.stock - q2 } :=
            Option.some.inj hl'.symm
          rcases hne with hx | hx <;> exact absurd rfl hx
        · rw [hshape, alookup_aset_ne _ _ heq] at hl'
          obtain rfl : l' = l := Option.some.inj (hl'.symm.trans hl)
          rcases hne with hx | hx <;> exact absurd rfl hx
  · intro ctx q ha hq
    exact decrementStock_of st ctx lid q l hl ha hq

/-- Witness for the amended C8 at a concrete input: the demo listing (seller
2, stock 10), with the seller-only update clause, the price/active authority
clause, and an unrestricted decrement instantiated. -/
theorem C8_listing_mutation_authority_witness :
    (∀ (ctx : CallCtx) (p s : Nat) (a : Bool), ctx.sender ≠ demoListing.seller →
      updateListing demoReg ctx "lst1" p s a = .error .Unauthorized ∧
      regExec (.update ctx "lst1" p s a) demoReg = demoReg) ∧
    (∀ (op : RegOp) (l' : Listing),
      alookup "lst1" (regExec op demoReg).listings = some l' →
      l'.price ≠ demoListing.price ∨ l'.active ≠ demoListing.active →
      ∃ (ctx : CallCtx) (p s : Nat) (a : Bool),
        op = .update ctx "lst1" p s a ∧ ctx.sender = demoListing.seller) ∧
    (∀ (ctx : CallCtx) (q : Nat), demoListing.active = true → q ≤ demoListing.stock →
      decrementStock demoReg ctx "lst1" q =
        .ok ({ demoReg with
                 listings := aset "lst1"
                   { demoListing with stock := demoListing.stock - q } demoReg.listings },
             demoListing.stock - q)) :=
  C8_listing_mutation_authority demoReg "lst1" demoListing (by rfl)
